import Mathlib

/-
  Shallow embedding of the persistent work queue and worker execution model of
  the management-system backend.

  Sources embedded:
  - src/src/models/Job.js        : the Job document schema (status enum, attempts,
                                   lastError, runAt, lead reference).
  - src/src/lib/worker.js        : processNextJob — atomic claim via findOneAndUpdate,
                                   handler dispatch, success-path lead aggregation,
                                   catch-block retry/backoff/permanent failure.
  - src/src/lib/workerTask.js    : the worker's own processNextJob copy (no success
                                   aggregator) and the startWorker polling loop.
  - src/src/controllers/leadController.js : retryLeadJobs (admin retry of failed jobs).

  Modelling conventions: timestamps are Nat milliseconds; one invocation of
  processNextJob sees a single instant `now` (the JS code calls new Date() /
  Date.now() several times within one run). MongoDB document stores are lists;
  updateOne on _id updates the first matching element (Mongo _id is a unique
  key, so theorems that need this carry a Nodup hypothesis on ids). The two
  delivery integrations (sheets, bitrix) are external collaborators: they are
  passed in as a handler oracle returning some true (returned true), some false
  (returned false) or none (threw).
-/

namespace Backend

inductive JobStatus where
  | queued
  | processing
  | completed
  | failed
deriving DecidableEq, Repr

inductive LeadStatus where
  | new
  | queued
  | processing
  | success
  | failed
  | duplicate
deriving DecidableEq, Repr

inductive JobType where
  | appendToSheets
  | pushToBitrix
deriving DecidableEq, Repr

/-- A Job document (src/src/models/Job.js): lead reference, type, status,
attempts, lastError, runAt. -/
structure Job where
  id : Nat
  lead : Nat
  type : JobType
  status : JobStatus
  attempts : Nat
  lastError : Option String
  runAt : Nat
deriving DecidableEq, Repr

/-- A Lead document, restricted to the fields the queue subsystem touches:
aggregate status, the source reference (populated by the claim), and the
per-target sub-status fields written by the handlers. -/
structure Lead where
  id : Nat
  status : LeadStatus
  sourceId : Option Nat
  sheetStatus : Option String
  bitrixStatus : Option String
deriving DecidableEq, Repr

/-- The database state: the Job collection, the Lead collection, and the set of
existing Source document ids (a Lead's sourceId populate succeeds iff its id is
listed here; the config payload itself is opaque to the core). -/
structure Store where
  jobs : List Job
  leads : List Lead
  sources : List Nat
deriving DecidableEq, Repr

/-- MAX_ATTEMPTS = 3 (worker.js line 10, workerTask.js line 12). -/
def MAX_ATTEMPTS : Nat := 3

/-- POLLING_INTERVAL_MS = 5000 (workerTask.js line 11). -/
def POLLING_INTERVAL_MS : Nat := 5000

/-- The findOneAndUpdate filter: status QUEUED and runAt ≤ now. -/
def jobEligible (now : Nat) (j : Job) : Prop :=
  j.status = JobStatus.queued ∧ j.runAt ≤ now

instance (now : Nat) (j : Job) : Decidable (jobEligible now j) :=
  inferInstanceAs (Decidable (j.status = JobStatus.queued ∧ j.runAt ≤ now))

/-- Selection half of findOneAndUpdate with sort runAt ascending: the index and
value of the eligible job with minimal runAt (earliest index on ties). -/
def claim? (now : Nat) : List Job → Option (Nat × Job)
  | [] => none
  | j :: rest =>
    if jobEligible now j then
      match claim? now rest with
      | some (k, b) => if b.runAt < j.runAt then some (k + 1, b) else some (0, j)
      | none => some (0, j)
    else
      match claim? now rest with
      | some (k, b) => some (k + 1, b)
      | none => none

/-- The update half of findOneAndUpdate: set status PROCESSING, increment
attempts by one. -/
def claimUpd (j : Job) : Job :=
  { j with status := JobStatus.processing, attempts := j.attempts + 1 }

/-- findOneAndUpdate with new true (worker.js lines 20-32): atomically select
the eligible job with minimal runAt, apply claimUpd, and return the
post-transition document together with the updated collection. -/
def applyClaim (now : Nat) (js : List Job) : Option (Job × List Job) :=
  match claim? now js with
  | none => none
  | some (k, j) => some (claimUpd j, js.set k (claimUpd j))

/-- Job.updateOne on a _id filter: update the first document with that id. -/
def updateFirstJob (x : Nat) (f : Job → Job) : List Job → List Job
  | [] => []
  | j :: rest => if j.id = x then f j :: rest else j :: updateFirstJob x f rest

/-- Lead.updateOne on a _id filter: update the first document with that id. -/
def updateFirstLead (x : Nat) (f : Lead → Lead) : List Lead → List Lead
  | [] => []
  | l :: rest => if l.id = x then f l :: rest else l :: updateFirstLead x f rest

/-- The populate of job.lead: fetch the Lead document by id. -/
def findLead (x : Nat) (ls : List Lead) : Option Lead :=
  ls.find? (fun l => l.id == x)

/-- The nested populate of lead.sourceId: true iff the reference is set and the
Source document exists, i.e. the check lead.sourceId at worker.js line 44 passes. -/
def sourceResolves (l : Lead) (sources : List Nat) : Bool :=
  match l.sourceId with
  | none => false
  | some sid => sources.contains sid

/-- Job.countDocuments with a predicate filter. -/
def countJobs (p : Job → Bool) (js : List Job) : Nat :=
  (js.filter p).length

/-- Jobs of a lead still QUEUED or PROCESSING (worker.js lines 77-80). -/
def pendingCount (leadId : Nat) (js : List Job) : Nat :=
  countJobs (fun j => j.lead == leadId
    && (j.status == JobStatus.queued || j.status == JobStatus.processing)) js

/-- Jobs of a lead with status FAILED (worker.js lines 84-87). -/
def failedCount (leadId : Nat) (js : List Job) : Nat :=
  countJobs (fun j => j.lead == leadId && j.status == JobStatus.failed) js

/-- The Lead.updateOne performed next to each handler call (worker.js lines
55-64): record the per-target sub-status. -/
def setSubStatus (t : JobType) (ok : Bool) (l : Lead) : Lead :=
  match t with
  | JobType.appendToSheets =>
    { l with sheetStatus := some (if ok then "SUCCESS" else "FAILED") }
  | JobType.pushToBitrix =>
    { l with bitrixStatus := some (if ok then "SUCCESS" else "FAILED") }

/-- Outcome of one processNextJob invocation: ok b models an ordinary return of
the boolean b; threw models the invocation itself raising (as the catch block
does when it dereferences a null job.lead). -/
inductive RunResult where
  | ok (processed : Bool)
  | threw
deriving DecidableEq, Repr

/-- delay = 5000 * Math.pow(5, job.attempts - 1) (worker.js line 119). -/
def backoffDelay (att : Nat) : Nat :=
  5000 * 5 ^ (att - 1)

/-- The catch block of processNextJob (worker.js lines 109-147), entered with
the claimed job (post-increment), the populated lead (none when the lead
reference did not resolve), the current time and the error message. If
job.attempts < MAX_ATTEMPTS the job is re-queued with exponential backoff;
otherwise the parent lead is marked FAILED and the job is marked FAILED — but
when the lead is missing, the expression job.lead._id at line 131 dereferences
null, so the catch block itself throws and neither update runs. -/
def catchPath (job : Job) (leadOpt : Option Lead) (now : Nat) (msg : String)
    (s : Store) : RunResult × Store :=
  if job.attempts < MAX_ATTEMPTS then
    let requeue : Job → Job := fun j =>
      { j with status := JobStatus.queued, lastError := some msg,
               runAt := now + backoffDelay job.attempts }
    (RunResult.ok false, { s with jobs := updateFirstJob job.id requeue s.jobs })
  else
    match leadOpt with
    | none => (RunResult.threw, s)
    | some l =>
      let leadFail : Lead → Lead := fun l2 => { l2 with status := LeadStatus.failed }
      let jobFail : Job → Job := fun j =>
        { j with status := JobStatus.failed, lastError := some msg, runAt := now }
      (RunResult.ok false,
        { s with leads := updateFirstLead l.id leadFail s.leads,
                 jobs := updateFirstJob job.id jobFail s.jobs })

/-- processNextJob from src/src/lib/worker.js: claim, populate, handler
dispatch with sub-status bookkeeping, success-path completion plus lead
aggregation, and the catch block for every failure path. -/
def processNextJob (handler : Job → Option Bool) (now : Nat) (s : Store) :
    RunResult × Store :=
  match applyClaim now s.jobs with
  | none => (RunResult.ok false, s)
  | some (job, jobs1) =>
    let s1 : Store := { s with jobs := jobs1 }
    match findLead job.lead s1.leads with
    | none => catchPath job none now "missing lead or source data" s1
    | some lead =>
      if sourceResolves lead s1.sources then
        match handler job with
        | none => catchPath job (some lead) now "handler threw" s1
        | some ok =>
          let s2 : Store :=
            { s1 with leads := updateFirstLead lead.id (setSubStatus job.type ok) s1.leads }
          if ok then
            let complete : Job → Job := fun j => { j with status := JobStatus.completed }
            let s3 : Store := { s2 with jobs := updateFirstJob job.id complete s2.jobs }
            if pendingCount lead.id s3.jobs = 0 then
              if failedCount lead.id s3.jobs = 0 then
                let leadWin : Lead → Lead := fun l => { l with status := LeadStatus.success }
                (RunResult.ok true,
                  { s3 with leads := updateFirstLead lead.id leadWin s3.leads })
              else (RunResult.ok true, s3)
            else (RunResult.ok true, s3)
          else catchPath job (some lead) now "handler returned false" s2
      else catchPath job (some lead) now "missing lead or source data" s1

/-- processNextJob from src/src/lib/workerTask.js: identical to the worker.js
version except that the success branch only marks the job COMPLETED (no lead
aggregation block). -/
def processNextJobTask (handler : Job → Option Bool) (now : Nat) (s : Store) :
    RunResult × Store :=
  match applyClaim now s.jobs with
  | none => (RunResult.ok false, s)
  | some (job, jobs1) =>
    let s1 : Store := { s with jobs := jobs1 }
    match findLead job.lead s1.leads with
    | none => catchPath job none now "missing lead or source data" s1
    | some lead =>
      if sourceResolves lead s1.sources then
        match handler job with
        | none => catchPath job (some lead) now "handler threw" s1
        | some ok =>
          let s2 : Store :=
            { s1 with leads := updateFirstLead lead.id (setSubStatus job.type ok) s1.leads }
          if ok then
            let complete : Job → Job := fun j => { j with status := JobStatus.completed }
            (RunResult.ok true,
              { s2 with jobs := updateFirstJob job.id complete s2.jobs })
          else catchPath job (some lead) now "handler returned false" s2
      else catchPath job (some lead) now "missing lead or source data" s1

/-- One iteration of the startWorker loop (workerTask.js lines 144-158): the
loop sleeps POLLING_INTERVAL_MS exactly when processNextJob did not return
true — i.e. it returned false, or it threw and the loop's catch ran. -/
def workerSleeps (handler : Job → Option Bool) (now : Nat) (s : Store) : Bool :=
  match (processNextJobTask handler now s).1 with
  | RunResult.ok true => false
  | _ => true

/-- retryLeadJobs from src/src/controllers/leadController.js (lines 226-260):
find the lead's FAILED jobs; if none, respond success without writing; else
reset them all to QUEUED with attempts 0, lastError null, runAt now, and set
the lead status to QUEUED. The Bool is the success flag of the HTTP response. -/
def retryLeadJobs (now leadId : Nat) (s : Store) : Bool × Store :=
  let failedJobs := s.jobs.filter (fun j => j.lead == leadId && j.status == JobStatus.failed)
  if failedJobs.length = 0 then
    (true, s)
  else
    let ids := failedJobs.map Job.id
    let jobs2 := s.jobs.map (fun j =>
      if ids.contains j.id then
        { j with status := JobStatus.queued, attempts := 0, lastError := none, runAt := now }
      else j)
    let leads2 := updateFirstLead leadId
      (fun l => { l with status := LeadStatus.queued }) s.leads
    (true, { s with jobs := jobs2, leads := leads2 })

/-- N concurrent callers of the claim operation, serialized by the store's
atomicity into a sequence of applyClaim steps at the given times: returns the
list of jobs handed out (in order) and the final job collection. -/
def claimTrace (ts : List Nat) (js : List Job) : List Job × List Job :=
  match ts with
  | [] => ([], js)
  | t :: rest =>
    match applyClaim t js with
    | none => claimTrace rest js
    | some (j, js1) =>
      let r := claimTrace rest js1
      (j :: r.1, r.2)

/-- The full contract of the claim operation (spec section 4.2) as it holds of
processNextJob's findOneAndUpdate step: none exactly when no job qualifies (and
the run leaves the store untouched), otherwise exactly one QUEUED-and-due job
of minimal runAt is transitioned to PROCESSING with attempts incremented by
one, the post-transition document is returned, and the increment is still in
the store after the full run, whatever the handler did. -/
def ClaimSpecHolds (h : Job → Option Bool) (now : Nat) (s : Store) : Prop :=
  (applyClaim now s.jobs = none →
    (∀ i c, s.jobs.get? i = some c → ¬ jobEligible now c) ∧
    processNextJob h now s = (RunResult.ok false, s)) ∧
  (∀ j2 js2, applyClaim now s.jobs = some (j2, js2) →
    ∃ k j, s.jobs.get? k = some j ∧ jobEligible now j ∧
      (∀ i c, s.jobs.get? i = some c → jobEligible now c → j.runAt ≤ c.runAt) ∧
      j2 = { j with status := JobStatus.processing, attempts := j.attempts + 1 } ∧
      js2 = s.jobs.set k j2 ∧
      ((processNextJob h now s).2.jobs.get? k).map Job.attempts = some (j.attempts + 1))

/-- The permitted single-write transitions of a Job document inside the worker:
leave the document alone, claim it (QUEUED to PROCESSING), or settle a claimed
document (PROCESSING to COMPLETED, back to QUEUED for a retry, or FAILED).
COMPLETED and FAILED documents are never moved. -/
def jobEdgeOK (a b : Job) : Prop :=
  a = b ∨
  (a.status = JobStatus.queued ∧ b.status = JobStatus.processing) ∨
  (a.status = JobStatus.processing ∧
    (b.status = JobStatus.completed ∨ b.status = JobStatus.queued ∨
     b.status = JobStatus.failed))

/-- One store write moves every job document along a permitted edge. -/
def storeWriteOK (js js2 : List Job) : Prop :=
  ∀ i a b, js.get? i = some a → js2.get? i = some b → jobEdgeOK a b

/-- No job carrying the id x is claimable: every document with that id is
already PROCESSING. -/
def idProcessing (x : Nat) (js : List Job) : Prop :=
  ∀ i c, js.get? i = some c → c.id = x → c.status = JobStatus.processing

/-- Concrete job rows used by the witness theorems. -/
def wjobsA : List Job :=
  [⟨10, 1, JobType.appendToSheets, JobStatus.queued, 0, none, 800⟩,
   ⟨11, 1, JobType.pushToBitrix, JobStatus.queued, 0, none, 300⟩]

/-- Concrete store used by the witness of the claim-protocol theorem. -/
def wstoreA : Store :=
  { jobs := wjobsA,
    leads := [⟨1, LeadStatus.processing, some 7, none, none⟩],
    sources := [7] }

/-- Concrete job rows used by the forward-only witness. -/
def wjobsB : List Job :=
  [⟨20, 2, JobType.appendToSheets, JobStatus.queued, 0, none, 0⟩,
   ⟨21, 2, JobType.pushToBitrix, JobStatus.completed, 1, none, 0⟩,
   ⟨22, 2, JobType.pushToBitrix, JobStatus.failed, 3, some "x", 0⟩]

/-- Concrete store used by the witness of the forward-only theorem. -/
def wstoreB : Store :=
  { jobs := wjobsB,
    leads := [⟨2, LeadStatus.processing, some 7, none, none⟩],
    sources := [7] }

/-- Lead with two jobs: an exhausted failing job due now and a queued sibling
due much later — exercises the permanent-failure path while a sibling is
pending. -/
def cstoreC : Store :=
  { jobs := [⟨60, 1, JobType.appendToSheets, JobStatus.queued, 2, some "e", 0⟩,
             ⟨61, 1, JobType.pushToBitrix, JobStatus.queued, 0, none, 1000000⟩],
    leads := [⟨1, LeadStatus.processing, some 7, none, none⟩],
    sources := [7] }

/-- A third-attempt job whose lead reference resolves to nothing. -/
def cstoreG : Store :=
  { jobs := [⟨50, 99, JobType.appendToSheets, JobStatus.queued, 2, none, 0⟩],
    leads := [⟨1, LeadStatus.processing, some 7, none, none⟩],
    sources := [7] }

/-- Two due queued jobs of one healthy lead, used with an always-failing
handler. -/
def cstoreH : Store :=
  { jobs := [⟨30, 3, JobType.appendToSheets, JobStatus.queued, 0, none, 0⟩,
             ⟨31, 3, JobType.pushToBitrix, JobStatus.queued, 0, none, 0⟩],
    leads := [⟨3, LeadStatus.processing, some 7, none, none⟩],
    sources := [7] }

/-- A third-attempt job with no lead collection at all. -/
def cstoreJ : Store :=
  { jobs := [⟨40, 99, JobType.pushToBitrix, JobStatus.queued, 2, some "e", 0⟩],
    leads := [],
    sources := [] }

/-- A fresh queued job due at time 0, used by the retry-schedule runs. -/
def cjobK : Job := ⟨70, 1, JobType.appendToSheets, JobStatus.queued, 0, none, 0⟩

/-- The lead owning cjobK. -/
def cleadK : Lead := ⟨1, LeadStatus.processing, some 7, none, none⟩

/-- Store holding cjobK and its lead. -/
def cstoreK : Store := { jobs := [cjobK], leads := [cleadK], sources := [7] }

/-- The store after three runs with an always-failing handler at times 0,
5000 and 30000. -/
def failRun3 : Store :=
  (processNextJob (fun _ => some false) 30000
    (processNextJob (fun _ => some false) 5000
      (processNextJob (fun _ => some false) 0 cstoreK).2).2).2

/-! ### Selection lemmas for the claim operation -/

theorem claim?_get {now : Nat} {js : List Job} {k : Nat} {b : Job}
    (h : claim? now js = some (k, b)) : js.get? k = some b := by
  induction js generalizing k b with
  | nil => simp [claim?] at h
  | cons j rest ih =>
    rw [claim?] at h
    by_cases he : jobEligible now j
    · rw [if_pos he] at h
      cases hr : claim? now rest with
      | none =>
        rw [hr] at h
        simp only [Option.some.injEq, Prod.mk.injEq] at h
        obtain ⟨hk, hb⟩ := h
        subst hk; subst hb; rfl
      | some pr =>
        obtain ⟨k2, b2⟩ := pr
        rw [hr] at h
        dsimp only at h
        by_cases hlt : b2.runAt < j.runAt
        · rw [if_pos hlt] at h
          simp only [Option.some.injEq, Prod.mk.injEq] at h
          obtain ⟨hk, hb⟩ := h
          subst hb
          cases hk
          simpa using ih hr
        · rw [if_neg hlt] at h
          simp only [Option.some.injEq, Prod.mk.injEq] at h
          obtain ⟨hk, hb⟩ := h
          subst hk; subst hb; rfl
    · rw [if_neg he] at h
      cases hr : claim? now rest with
      | none => rw [hr] at h; exact absurd h (by simp)
      | some pr =>
        obtain ⟨k2, b2⟩ := pr
        rw [hr] at h
        simp only [Option.some.injEq, Prod.mk.injEq] at h
        obtain ⟨hk, hb⟩ := h
        subst hb
        cases hk
        simpa using ih hr

theorem claim?_eligible {now : Nat} {js : List Job} {k : Nat} {b : Job}
    (h : claim? now js = some (k, b)) : jobEligible now b := by
  induction js generalizing k b with
  | nil => simp [claim?] at h
  | cons j rest ih =>
    rw [claim?] at h
    by_cases he : jobEligible now j
    · rw [if_pos he] at h
      cases hr : claim? now rest with
      | none =>
        rw [hr] at h
        simp only [Option.some.injEq, Prod.mk.injEq] at h
        obtain ⟨_, hb⟩ := h
        subst hb; exact he
      | some pr =>
        obtain ⟨k2, b2⟩ := pr
        rw [hr] at h
        dsimp only at h
        by_cases hlt : b2.runAt < j.runAt
        · rw [if_pos hlt] at h
          simp only [Option.some.injEq, Prod.mk.injEq] at h
          obtain ⟨_, hb⟩ := h
          subst hb; exact ih hr
        · rw [if_neg hlt] at h
          simp only [Option.some.injEq, Prod.mk.injEq] at h
          obtain ⟨_, hb⟩ := h
          subst hb; exact he
    · rw [if_neg he] at h
      cases hr : claim? now rest with
      | none => rw [hr] at h; exact absurd h (by simp)
      | some pr =>
        obtain ⟨k2, b2⟩ := pr
        rw [hr] at h
        simp only [Option.some.injEq, Prod.mk.injEq] at h
        obtain ⟨_, hb⟩ := h
        subst hb; exact ih hr

theorem claim?_none {now : Nat} {js : List Job}
    (h : claim? now js = none) :
    ∀ i c, js.get? i = some c → ¬ jobEligible now c := by
  induction js with
  | nil => intro i c hc; simp at hc
  | cons j rest ih =>
    rw [claim?] at h
    by_cases he : jobEligible now j
    · rw [if_pos he] at h
      cases hr : claim? now rest with
      | none => rw [hr] at h; exact absurd h (by simp)
      | some pr =>
        obtain ⟨k2, b2⟩ := pr
        rw [hr] at h
        dsimp only at h
        split at h <;> simp at h
    · rw [if_neg he] at h
      cases hr : claim? now rest with
      | none =>
        intro i c hc
        match i, hc with
        | 0, hc => simp at hc; subst hc; exact he
        | (i + 1), hc => exact ih hr i c (by simpa using hc)
      | some pr => obtain ⟨k2, b2⟩ := pr; rw [hr] at h; simp at h

theorem claim?_min {now : Nat} {js : List Job} {k : Nat} {b : Job}
    (h : claim? now js = some (k, b)) :
    ∀ i c, js.get? i = some c → jobEligible now c → b.runAt ≤ c.runAt := by
  induction js generalizing k b with
  | nil => simp [claim?] at h
  | cons j rest ih =>
    rw [claim?] at h
    by_cases he : jobEligible now j
    · rw [if_pos he] at h
      cases hr : claim? now rest with
      | none =>
        rw [hr] at h
        simp only [Option.some.injEq, Prod.mk.injEq] at h
        obtain ⟨_, hb⟩ := h
        subst hb
        intro i c hc hel
        match i, hc with
        | 0, hc => simp at hc; subst hc; exact le_refl _
        | (i + 1), hc => exact absurd hel (claim?_none hr i c (by simpa using hc))
      | some pr =>
        obtain ⟨k2, b2⟩ := pr
        rw [hr] at h
        dsimp only at h
        by_cases hlt : b2.runAt < j.runAt
        · rw [if_pos hlt] at h
          simp only [Option.some.injEq, Prod.mk.injEq] at h
          obtain ⟨_, hb⟩ := h
          subst hb
          intro i c hc hel
          match i, hc with
          | 0, hc => simp at hc; subst hc; exact le_of_lt hlt
          | (i + 1), hc => exact ih hr i c (by simpa using hc) hel
        · rw [if_neg hlt] at h
          simp only [Option.some.injEq, Prod.mk.injEq] at h
          obtain ⟨_, hb⟩ := h
          subst hb
          intro i c hc hel
          match i, hc with
          | 0, hc => simp at hc; subst hc; exact le_refl _
          | (i + 1), hc =>
            exact le_trans (Nat.le_of_not_lt hlt) (ih hr i c (by simpa using hc) hel)
    · rw [if_neg he] at h
      cases hr : claim? now rest with
      | none => rw [hr] at h; exact absurd h (by simp)
      | some pr =>
        obtain ⟨k2, b2⟩ := pr
        rw [hr] at h
        simp only [Option.some.injEq, Prod.mk.injEq] at h
        obtain ⟨_, hb⟩ := h
        subst hb
        intro i c hc hel
        match i, hc with
        | 0, hc => simp at hc; subst hc; exact absurd hel he
        | (i + 1), hc => exact ih hr i c (by simpa using hc) hel

theorem applyClaim_none_iff {now : Nat} {js : List Job} :
    applyClaim now js = none ↔ claim? now js = none := by
  unfold applyClaim
  cases h : claim? now js with
  | none => simp
  | some pr => obtain ⟨k, j⟩ := pr; simp

theorem applyClaim_some {now : Nat} {js : List Job} {j2 : Job} {js2 : List Job}
    (h : applyClaim now js = some (j2, js2)) :
    ∃ k j, claim? now js = some (k, j) ∧ j2 = claimUpd j ∧ js2 = js.set k (claimUpd j) := by
  unfold applyClaim at h
  cases hc : claim? now js with
  | none => rw [hc] at h; simp at h
  | some pr =>
    obtain ⟨k, j⟩ := pr
    rw [hc] at h
    simp only [Option.some.injEq, Prod.mk.injEq] at h
    obtain ⟨h1, h2⟩ := h
    exact ⟨k, j, rfl, h1.symm, h2.symm⟩

/-! ### Helpers about list updates and unique document ids -/

theorem get?_lt_length {α : Type} {l : List α} {i : Nat} {a : α}
    (h : l.get? i = some a) : i < l.length := by
  by_contra hge
  rw [List.get?_eq_none.mpr (Nat.le_of_not_lt hge)] at h
  cases h

theorem nodup_ids_ne {js : List Job} (hnd : (js.map Job.id).Nodup) {i k : Nat} {a b : Job}
    (ha : js.get? i = some a) (hb : js.get? k = some b) (hik : i ≠ k) : a.id ≠ b.id := by
  intro he
  have h1 : (js.map Job.id).get? i = some a.id := by
    rw [List.get?_map, ha]; rfl
  have h2 : (js.map Job.id).get? k = some b.id := by
    rw [List.get?_map, hb]; rfl
  have hlen : i < (js.map Job.id).length := by
    rw [List.length_map]; exact get?_lt_length ha
  have : i = k := by
    apply List.getElem?_inj hlen hnd
    rw [← List.get?_eq_getElem?, ← List.get?_eq_getElem?, h1, h2, he]
  exact hik this

theorem claimUpd_id (j : Job) : (claimUpd j).id = j.id := rfl

theorem setSubStatus_id (t : JobType) (ok : Bool) (l : Lead) :
    (setSubStatus t ok l).id = l.id := by
  cases t <;> rfl

theorem setSubStatus_status (t : JobType) (ok : Bool) (l : Lead) :
    (setSubStatus t ok l).status = l.status := by
  cases t <;> rfl

theorem setSubStatus_sourceId (t : JobType) (ok : Bool) (l : Lead) :
    (setSubStatus t ok l).sourceId = l.sourceId := by
  cases t <;> rfl

theorem map_id_set {js : List Job} {k : Nat} {j j2 : Job}
    (hk : js.get? k = some j) (hid : j2.id = j.id) :
    (js.set k j2).map Job.id = js.map Job.id := by
  induction js generalizing k with
  | nil => simp at hk
  | cons a rest ih =>
    match k, hk with
    | 0, hk =>
      simp only [List.get?_cons_zero, Option.some.injEq] at hk
      subst hk
      simp [hid]
    | (k + 1), hk =>
      have hk2 : rest.get? k = some j := by simpa using hk
      simp [ih hk2]

theorem updateFirstJob_eq_set {x : Nat} {f : Job → Job} {js : List Job} {k : Nat} {j : Job}
    (hnd : (js.map Job.id).Nodup) (hk : js.get? k = some j) (hid : j.id = x) :
    updateFirstJob x f js = js.set k (f j) := by
  induction js generalizing k with
  | nil => simp at hk
  | cons a rest ih =>
    match k, hk with
    | 0, hk =>
      simp only [List.get?_cons_zero, Option.some.injEq] at hk
      subst hk
      rw [updateFirstJob, if_pos hid]
      rfl
    | (k + 1), hk =>
      have hk2 : rest.get? k = some j := by simpa using hk
      have hnd2 : (a.id :: rest.map Job.id).Nodup := by simpa using hnd
      have hmem : j ∈ rest := List.get?_mem hk2
      have hja : ¬ a.id = x := by
        intro hax
        exact (List.nodup_cons.mp hnd2).1
          (by rw [hax, ← hid]; exact List.mem_map_of_mem Job.id hmem)
      rw [updateFirstJob, if_neg hja,
        ih (by simpa using (List.nodup_cons.mp hnd2).2) hk2]
      rfl

theorem updateFirstLead_eq_set {x : Nat} {f : Lead → Lead} {ls : List Lead} {k : Nat} {l : Lead}
    (hnd : (ls.map Lead.id).Nodup) (hk : ls.get? k = some l) (hid : l.id = x) :
    updateFirstLead x f ls = ls.set k (f l) := by
  induction ls generalizing k with
  | nil => simp at hk
  | cons a rest ih =>
    match k, hk with
    | 0, hk =>
      simp only [List.get?_cons_zero, Option.some.injEq] at hk
      subst hk
      rw [updateFirstLead, if_pos hid]
      rfl
    | (k + 1), hk =>
      have hk2 : rest.get? k = some l := by simpa using hk
      have hnd2 : (a.id :: rest.map Lead.id).Nodup := by simpa using hnd
      have hmem : l ∈ rest := List.get?_mem hk2
      have hla : ¬ a.id = x := by
        intro hax
        exact (List.nodup_cons.mp hnd2).1
          (by rw [hax, ← hid]; exact List.mem_map_of_mem Lead.id hmem)
      rw [updateFirstLead, if_neg hla,
        ih (by simpa using (List.nodup_cons.mp hnd2).2) hk2]
      rfl

theorem updateFirstLead_get? (x : Nat) (f : Lead → Lead) (ls : List Lead) (i : Nat) :
    (updateFirstLead x f ls).get? i = ls.get? i ∨
    ∃ l, ls.get? i = some l ∧ l.id = x ∧ (updateFirstLead x f ls).get? i = some (f l) := by
  induction ls generalizing i with
  | nil => left; rfl
  | cons a rest ih =>
    rw [updateFirstLead]
    by_cases ha : a.id = x
    · rw [if_pos ha]
      match i with
      | 0 => right; exact ⟨a, rfl, ha, rfl⟩
      | (i + 1) => left; simp
    · rw [if_neg ha]
      match i with
      | 0 => left; rfl
      | (i + 1) => simpa using ih i

theorem updateFirstJob_get? (x : Nat) (f : Job → Job) (js : List Job) (i : Nat) :
    (updateFirstJob x f js).get? i = js.get? i ∨
    ∃ j, js.get? i = some j ∧ j.id = x ∧ (updateFirstJob x f js).get? i = some (f j) := by
  induction js generalizing i with
  | nil => left; rfl
  | cons a rest ih =>
    rw [updateFirstJob]
    by_cases ha : a.id = x
    · rw [if_pos ha]
      match i with
      | 0 => right; exact ⟨a, rfl, ha, rfl⟩
      | (i + 1) => left; simp
    · rw [if_neg ha]
      match i with
      | 0 => left; rfl
      | (i + 1) => simpa using ih i

theorem map_status_updateFirstLead {f : Lead → Lead} (hf : ∀ l, (f l).status = l.status)
    (x : Nat) (ls : List Lead) :
    (updateFirstLead x f ls).map Lead.status = ls.map Lead.status := by
  induction ls with
  | nil => rfl
  | cons a rest ih =>
    rw [updateFirstLead]
    split <;> simp [hf, ih]

theorem findLead_some {x : Nat} {ls : List Lead} {l : Lead}
    (h : findLead x ls = some l) : l.id = x ∧ l ∈ ls := by
  unfold findLead at h
  refine ⟨?_, List.mem_of_find?_eq_some h⟩
  have h1 := List.find?_some h
  simpa using h1

theorem findLead_updateFirstLead_self {f : Lead → Lead} (hf : ∀ l, (f l).id = l.id)
    (x : Nat) (ls : List Lead) :
    findLead x (updateFirstLead x f ls) = (findLead x ls).map f := by
  induction ls with
  | nil => rfl
  | cons a rest ih =>
    rw [updateFirstLead]
    by_cases ha : a.id = x
    · rw [if_pos ha]
      simp [findLead, List.find?_cons, hf, ha]
    · rw [if_neg ha]
      simp only [findLead, List.find?_cons] at ih ⊢
      rw [show (a.id == x) = false by simpa using ha]
      simpa using ih

theorem findLead_updateFirstLead_ne {f : Lead → Lead} (hf : ∀ l, (f l).id = l.id)
    {x y : Nat} (hne : y ≠ x) (ls : List Lead) :
    findLead x (updateFirstLead y f ls) = findLead x ls := by
  induction ls with
  | nil => rfl
  | cons a rest ih =>
    rw [updateFirstLead]
    by_cases ha : a.id = y
    · rw [if_pos ha]
      have hax : (a.id == x) = false := by
        simp only [beq_eq_false_iff_ne, ne_eq]
        rw [ha]; exact hne
      simp [findLead, List.find?_cons, hf, hax]
    · rw [if_neg ha]
      simp only [findLead, List.find?_cons] at ih ⊢
      cases hax : (a.id == x) with
      | true => rfl
      | false => simpa using ih

theorem set_get?_self {α : Type} : ∀ {l : List α} {k : Nat} {a : α},
    l.get? k = some a → l.set k a = l := by
  intro l
  induction l with
  | nil => intro k a h; simp at h
  | cons x rest ih =>
    intro k a h
    match k, h with
    | 0, h =>
      simp only [List.get?_cons_zero, Option.some.injEq] at h
      subst h; rfl
    | (k + 1), h =>
      have h2 : rest.get? k = some a := by simpa using h
      simp [ih h2]

theorem applyClaim_ids {now : Nat} {js : List Job} {j2 : Job} {js2 : List Job}
    (h : applyClaim now js = some (j2, js2)) :
    js2.map Job.id = js.map Job.id := by
  obtain ⟨k, j, hc, hj2, hjs2⟩ := applyClaim_some h
  subst hjs2
  exact map_id_set (claim?_get hc) rfl

theorem idProcessing_preserved {now : Nat} {js : List Job} {j2 : Job} {js2 : List Job} {x : Nat}
    (h : applyClaim now js = some (j2, js2)) (hx : idProcessing x js) :
    idProcessing x js2 := by
  obtain ⟨k, j, hc, hj2, hjs2⟩ := applyClaim_some h
  subst hjs2
  intro i c hci hcx
  rw [List.get?_set] at hci
  split at hci
  · cases hji : js.get? i with
    | none => rw [hji] at hci; cases hci
    | some w =>
      rw [hji] at hci
      injection hci with hci2
      rw [← hci2]; rfl
  · exact hx i c hci hcx

theorem claim_not_processing {now : Nat} {js : List Job} {j2 : Job} {js2 : List Job} {x : Nat}
    (h : applyClaim now js = some (j2, js2)) (hx : idProcessing x js) :
    j2.id ≠ x := by
  obtain ⟨k, j, hc, hj2, _⟩ := applyClaim_some h
  intro he
  have hel := claim?_eligible hc
  have hget := claim?_get hc
  have hpr : j.status = JobStatus.processing := by
    refine hx k j hget ?_
    rw [← he, hj2]; rfl
  rw [hel.1] at hpr
  cases hpr

theorem idProcessing_estab {now : Nat} {js : List Job} {j2 : Job} {js2 : List Job}
    (hnd : (js.map Job.id).Nodup) (h : applyClaim now js = some (j2, js2)) :
    idProcessing j2.id js2 := by
  obtain ⟨k, j, hc, hj2, hjs2⟩ := applyClaim_some h
  subst hj2 hjs2
  intro i c hci hcid
  rw [List.get?_set] at hci
  split at hci
  · cases hji : js.get? i with
    | none => rw [hji] at hci; cases hci
    | some w =>
      rw [hji] at hci
      injection hci with hci2
      rw [← hci2]; rfl
  · rename_i hki
    have hne : c.id ≠ j.id := nodup_ids_ne hnd hci (claim?_get hc) (fun hik => hki hik.symm)
    exact absurd (show c.id = j.id from hcid) hne

theorem claimTrace_aux : ∀ (ts : List Nat) (js : List Job), (js.map Job.id).Nodup →
    ((claimTrace ts js).1.map Job.id).Nodup ∧
    (∀ x, idProcessing x js → ∀ c ∈ (claimTrace ts js).1, c.id ≠ x) := by
  intro ts
  induction ts with
  | nil =>
    intro js hnd
    refine ⟨by simp [claimTrace], ?_⟩
    intro x hx c hc
    simp [claimTrace] at hc
  | cons t rest ih =>
    intro js hnd
    rw [claimTrace]
    cases hac : applyClaim t js with
    | none => exact ih js hnd
    | some pr =>
      obtain ⟨j2, js1⟩ := pr
      have hnd1 : (js1.map Job.id).Nodup := by rw [applyClaim_ids hac]; exact hnd
      have ihr := ih js1 hnd1
      constructor
      · refine List.nodup_cons.mpr ⟨?_, ihr.1⟩
        intro hmem
        obtain ⟨c, hcmem, hcid⟩ := List.mem_map.mp hmem
        exact (ihr.2 j2.id (idProcessing_estab hnd hac) c hcmem) hcid
      · intro x hx c hc
        rcases List.mem_cons.mp hc with hcj | hcr
        · subst hcj; exact claim_not_processing hac hx
        · exact ihr.2 x (idProcessing_preserved hac hx) c hcr

/-- C2: across any number of concurrent callers of the claim operation —
serialized by findOneAndUpdate's atomicity into a sequence of claims at
arbitrary times against the same evolving store — no two callers ever receive
a Job with the same id: each Job is handed out, with its transition to
PROCESSING, to at most one caller. -/
theorem claim_mutual_exclusion (ts : List Nat) (js : List Job)
    (hnd : (js.map Job.id).Nodup) :
    ((claimTrace ts js).1.map Job.id).Nodup :=
  (claimTrace_aux ts js hnd).1

/-- Concrete run of claim_mutual_exclusion: two eligible jobs, three racing
callers; the two claims hand out distinct jobs and the third caller gets none. -/
theorem claim_mutual_exclusion_witness :
    (([⟨10, 1, JobType.appendToSheets, JobStatus.queued, 0, none, 0⟩,
       ⟨11, 1, JobType.pushToBitrix, JobStatus.queued, 0, none, 0⟩] : List Job).map Job.id).Nodup ∧
    ((claimTrace [0, 0, 0]
      [⟨10, 1, JobType.appendToSheets, JobStatus.queued, 0, none, 0⟩,
       ⟨11, 1, JobType.pushToBitrix, JobStatus.queued, 0, none, 0⟩]).1.map Job.id).Nodup :=
  ⟨by decide, claim_mutual_exclusion [0, 0, 0] _ (by decide)⟩

/-! ### Shape of the catch block and of a full processNextJob run -/

theorem catchPath_jobs (job : Job) (lo : Option Lead) (now : Nat) (msg : String) (s : Store)
    {k : Nat} (hnd : (s.jobs.map Job.id).Nodup) (hk : s.jobs.get? k = some job) :
    ∃ j2, (catchPath job lo now msg s).2.jobs = s.jobs.set k j2 ∧
      j2.id = job.id ∧ j2.lead = job.lead ∧ j2.type = job.type ∧
      j2.attempts = job.attempts ∧
      ((job.attempts < MAX_ATTEMPTS ∧ j2.status = JobStatus.queued ∧
        j2.lastError = some msg ∧ j2.runAt = now + backoffDelay job.attempts) ∨
       (¬ job.attempts < MAX_ATTEMPTS ∧ lo = none ∧ j2 = job) ∨
       (¬ job.attempts < MAX_ATTEMPTS ∧ (∃ l, lo = some l) ∧ j2.status = JobStatus.failed ∧
        j2.lastError = some msg ∧ j2.runAt = now)) := by
  unfold catchPath
  by_cases hatt : job.attempts < MAX_ATTEMPTS
  · rw [if_pos hatt]
    dsimp only
    exact ⟨_, updateFirstJob_eq_set hnd hk rfl, rfl, rfl, rfl, rfl,
      Or.inl ⟨hatt, rfl, rfl, rfl⟩⟩
  · rw [if_neg hatt]
    cases lo with
    | none =>
      dsimp only
      exact ⟨job, (set_get?_self hk).symm, rfl, rfl, rfl, rfl,
        Or.inr (Or.inl ⟨hatt, rfl, rfl⟩)⟩
    | some l =>
      dsimp only
      exact ⟨_, updateFirstJob_eq_set hnd hk rfl, rfl, rfl, rfl, rfl,
        Or.inr (Or.inr ⟨hatt, ⟨l, rfl⟩, rfl, rfl, rfl⟩)⟩

theorem catchPath_leads (job : Job) (lo : Option Lead) (now : Nat) (msg : String) (s : Store) :
    (catchPath job lo now msg s).2.leads = s.leads ∨
    (¬ job.attempts < MAX_ATTEMPTS ∧ ∃ l, lo = some l ∧
      (catchPath job lo now msg s).2.leads =
        updateFirstLead l.id (fun l2 => { l2 with status := LeadStatus.failed }) s.leads) := by
  unfold catchPath
  by_cases hatt : job.attempts < MAX_ATTEMPTS
  · rw [if_pos hatt]; left; rfl
  · rw [if_neg hatt]
    cases lo with
    | none => left; rfl
    | some l => right; exact ⟨hatt, l, rfl, rfl⟩

theorem catchPath_fst_ne_true {job : Job} {lo : Option Lead} {now : Nat} {msg : String}
    {s : Store} : (catchPath job lo now msg s).1 ≠ RunResult.ok true := by
  unfold catchPath
  by_cases hatt : job.attempts < MAX_ATTEMPTS
  · rw [if_pos hatt]; intro hco; cases hco
  · rw [if_neg hatt]
    cases lo with
    | none => intro hco; cases hco
    | some l => intro hco; cases hco

theorem catchPath_fst_ok_false {job : Job} {lo : Option Lead} {now : Nat} {msg : String}
    {s : Store} (hv : job.attempts < MAX_ATTEMPTS ∨ lo ≠ none) :
    (catchPath job lo now msg s).1 = RunResult.ok false := by
  unfold catchPath
  by_cases hatt : job.attempts < MAX_ATTEMPTS
  · rw [if_pos hatt]
  · rw [if_neg hatt]
    cases lo with
    | none =>
      rcases hv with hv | hv
      · exact absurd hv hatt
      · exact absurd rfl hv
    | some l => rfl

theorem processNextJob_final_jobs (h : Job → Option Bool) (now : Nat) (s : Store)
    (hnd : (s.jobs.map Job.id).Nodup) :
    (claim? now s.jobs = none ∧ processNextJob h now s = (RunResult.ok false, s)) ∨
    (∃ k j j2, claim? now s.jobs = some (k, j) ∧
      (processNextJob h now s).2.jobs = (s.jobs.set k (claimUpd j)).set k j2 ∧
      j2.id = j.id ∧ j2.lead = j.lead ∧ j2.attempts = j.attempts + 1 ∧
      (j2 = claimUpd j ∨ j2.status = JobStatus.completed ∨
       j2.status = JobStatus.queued ∨ j2.status = JobStatus.failed)) := by
  cases hac : applyClaim now s.jobs with
  | none =>
    left
    refine ⟨applyClaim_none_iff.mp hac, ?_⟩
    unfold processNextJob
    rw [hac]
  | some pr =>
    obtain ⟨job, js1⟩ := pr
    right
    obtain ⟨k, j, hc, hjob, hjs1⟩ := applyClaim_some hac
    subst hjob
    subst hjs1
    have hjs1k : (s.jobs.set k (claimUpd j)).get? k = some (claimUpd j) := by
      rw [List.get?_set, if_pos rfl, claim?_get hc]; rfl
    have hnd1 : ((s.jobs.set k (claimUpd j)).map Job.id).Nodup := by
      rw [applyClaim_ids hac]; exact hnd
    refine ⟨k, j, ?_⟩
    unfold processNextJob
    rw [hac]
    dsimp only
    cases hfl : findLead (claimUpd j).lead s.leads with
    | none =>
      dsimp only
      obtain ⟨j2, hje, hid, hlead, _, hatt, hcase⟩ :=
        catchPath_jobs (claimUpd j) none now "missing lead or source data"
          { s with jobs := s.jobs.set k (claimUpd j) } hnd1 hjs1k
      refine ⟨j2, hc, hje, hid, hlead, hatt, ?_⟩
      rcases hcase with ⟨_, hq, _, _⟩ | ⟨_, _, hj⟩ | ⟨_, _, hf, _, _⟩
      · exact Or.inr (Or.inr (Or.inl hq))
      · exact Or.inl hj
      · exact Or.inr (Or.inr (Or.inr hf))
    | some lead =>
      dsimp only
      cases hsr : sourceResolves lead s.sources with
      | false =>
        rw [if_neg (by simp)]
        obtain ⟨j2, hje, hid, hlead, _, hatt, hcase⟩ :=
          catchPath_jobs (claimUpd j) (some lead) now "missing lead or source data"
            { s with jobs := s.jobs.set k (claimUpd j) } hnd1 hjs1k
        refine ⟨j2, hc, hje, hid, hlead, hatt, ?_⟩
        rcases hcase with ⟨_, hq, _, _⟩ | ⟨_, _, hj⟩ | ⟨_, _, hf, _, _⟩
        · exact Or.inr (Or.inr (Or.inl hq))
        · exact Or.inl hj
        · exact Or.inr (Or.inr (Or.inr hf))
      | true =>
        rw [if_pos rfl]
        cases hh : h (claimUpd j) with
        | none =>
          dsimp only
          obtain ⟨j2, hje, hid, hlead, _, hatt, hcase⟩ :=
            catchPath_jobs (claimUpd j) (some lead) now "handler threw"
              { s with jobs := s.jobs.set k (claimUpd j) } hnd1 hjs1k
          refine ⟨j2, hc, hje, hid, hlead, hatt, ?_⟩
          rcases hcase with ⟨_, hq, _, _⟩ | ⟨_, _, hj⟩ | ⟨_, _, hf, _, _⟩
          · exact Or.inr (Or.inr (Or.inl hq))
          · exact Or.inl hj
          · exact Or.inr (Or.inr (Or.inr hf))
        | some ok =>
          dsimp only
          cases ok with
          | false =>
            rw [if_neg (by simp)]
            obtain ⟨j2, hje, hid, hlead, _, hatt, hcase⟩ :=
              catchPath_jobs (claimUpd j) (some lead) now "handler returned false"
                { s with
                  jobs := s.jobs.set k (claimUpd j),
                  leads := updateFirstLead lead.id
                    (setSubStatus (claimUpd j).type false) s.leads }
                hnd1 hjs1k
            refine ⟨j2, hc, hje, hid, hlead, hatt, ?_⟩
            rcases hcase with ⟨_, hq, _, _⟩ | ⟨_, _, hj⟩ | ⟨_, _, hf, _, _⟩
            · exact Or.inr (Or.inr (Or.inl hq))
            · exact Or.inl hj
            · exact Or.inr (Or.inr (Or.inr hf))
          | true =>
            rw [if_pos rfl]
            rw [updateFirstJob_eq_set hnd1 hjs1k rfl]
            by_cases hp : pendingCount lead.id
                ((s.jobs.set k (claimUpd j)).set k
                  { claimUpd j with status := JobStatus.completed }) = 0
            · rw [if_pos hp]
              by_cases hf0 : failedCount lead.id
                  ((s.jobs.set k (claimUpd j)).set k
                    { claimUpd j with status := JobStatus.completed }) = 0
              · rw [if_pos hf0]
                exact ⟨_, hc, rfl, rfl, rfl, rfl, Or.inr (Or.inl rfl)⟩
              · rw [if_neg hf0]
                exact ⟨_, hc, rfl, rfl, rfl, rfl, Or.inr (Or.inl rfl)⟩
            · rw [if_neg hp]
              exact ⟨_, hc, rfl, rfl, rfl, rfl, Or.inr (Or.inl rfl)⟩

/-- C1: the claim operation of processNextJob selects exactly one Job with
status QUEUED and runAt at most now, of minimal runAt (oldest-due-first),
transitions it to PROCESSING, increments attempts by exactly one, and returns
the post-transition Job; the increment is recorded at claim time and survives
the whole run, whichever way the handler turns out; if no Job satisfies the
predicate, the claim returns none and the run leaves the store unchanged. -/
theorem claim_protocol_spec (h : Job → Option Bool) (now : Nat) (s : Store)
    (hnd : (s.jobs.map Job.id).Nodup) : ClaimSpecHolds h now s := by
  constructor
  · intro hac
    refine ⟨claim?_none (applyClaim_none_iff.mp hac), ?_⟩
    unfold processNextJob
    rw [hac]
  · intro j2 js2 hac
    obtain ⟨k, j, hc, hj2, hjs2⟩ := applyClaim_some hac
    refine ⟨k, j, claim?_get hc, claim?_eligible hc, claim?_min hc, hj2, ?_, ?_⟩
    · rw [hjs2, hj2]
    · rcases processNextJob_final_jobs h now s hnd with ⟨hnone, _⟩ | ⟨k2, j3, j4, hc2, hje, _, _, hatt, _⟩
      · rw [hc] at hnone; cases hnone
      · rw [hc] at hc2
        injection hc2 with hc2
        injection hc2 with hk hj
        subst hk; subst hj
        rw [hje, List.get?_set, if_pos rfl, List.get?_set, if_pos rfl, claim?_get hc]
        simp [hatt]

/-- Concrete run of claim_protocol_spec: two queued jobs, the later-due one in
front; the claim picks the older-due job, increments its attempts, and the
increment is visible in the final store. -/
theorem claim_protocol_spec_witness :
    ((wstoreA.jobs.map Job.id).Nodup) ∧
    ClaimSpecHolds (fun _ => some true) 900 wstoreA :=
  ⟨by decide, claim_protocol_spec (fun _ => some true) 900 wstoreA (by decide)⟩

theorem storeWriteOK_refl (js : List Job) : storeWriteOK js js := by
  intro i a b ha hb
  rw [ha] at hb
  injection hb with hb
  exact Or.inl hb

theorem storeWriteOK_of_set {js : List Job} {k : Nat} {a b : Job}
    (ha : js.get? k = some a) (hedge : jobEdgeOK a b) :
    storeWriteOK js (js.set k b) := by
  intro i x y hx hy
  rw [List.get?_set] at hy
  by_cases hik : k = i
  · rw [if_pos hik] at hy
    subst hik
    rw [hx] at hy
    injection hy with hy
    rw [hx] at ha
    injection ha with ha
    subst hy; subst ha
    exact hedge
  · rw [if_neg hik] at hy
    rw [hx] at hy
    injection hy with hy
    exact Or.inl hy

theorem nodup_ids_mem_eq {js : List Job} (hnd : (js.map Job.id).Nodup) {a c : Job}
    (hma : a ∈ js) (hmc : c ∈ js) (hid : a.id = c.id) : a = c := by
  obtain ⟨i, hi⟩ := List.mem_iff_get?.mp hma
  obtain ⟨k2, hk2⟩ := List.mem_iff_get?.mp hmc
  by_cases hik : i = k2
  · subst hik
    rw [hi] at hk2
    injection hk2
  · exact absurd hid (nodup_ids_ne hnd hi hk2 hik)

/-- C4: every write of the worker keeps each Job on the forward-only status
graph — a processNextJob run is two store writes (the claim, then the
settlement of the claimed job), each moving documents only along permitted
edges (so never COMPLETED to QUEUED, COMPLETED to PROCESSING, FAILED to
PROCESSING, nor FAILED to QUEUED) — while the admin retry reset either leaves
a document untouched or moves it exactly FAILED to QUEUED. -/
theorem job_status_forward_only (h : Job → Option Bool) (now : Nat) (s : Store)
    (hnd : (s.jobs.map Job.id).Nodup) :
    (∃ mid, storeWriteOK s.jobs mid ∧ storeWriteOK mid (processNextJob h now s).2.jobs) ∧
    (∀ rnow leadId i a b, s.jobs.get? i = some a →
      (retryLeadJobs rnow leadId s).2.jobs.get? i = some b →
      a = b ∨ (a.status = JobStatus.failed ∧ b.status = JobStatus.queued ∧
        b.attempts = 0 ∧ b.lastError = none ∧ b.runAt = rnow)) := by
  constructor
  · rcases processNextJob_final_jobs h now s hnd with ⟨_, heq⟩ | ⟨k, j, j2, hc, hje, _, _, _, hst⟩
    · refine ⟨s.jobs, storeWriteOK_refl s.jobs, ?_⟩
      rw [heq]
      exact storeWriteOK_refl s.jobs
    · refine ⟨s.jobs.set k (claimUpd j), ?_, ?_⟩
      · refine storeWriteOK_of_set (claim?_get hc) ?_
        exact Or.inr (Or.inl ⟨(claim?_eligible hc).1, rfl⟩)
      · rw [hje]
        refine storeWriteOK_of_set (a := claimUpd j) ?_ ?_
        · rw [List.get?_set, if_pos rfl, claim?_get hc]; rfl
        · rcases hst with hst | hst | hst | hst
          · exact Or.inl hst.symm
          · exact Or.inr (Or.inr ⟨rfl, Or.inl hst⟩)
          · exact Or.inr (Or.inr ⟨rfl, Or.inr (Or.inl hst)⟩)
          · exact Or.inr (Or.inr ⟨rfl, Or.inr (Or.inr hst)⟩)
  · intro rnow leadId i a b ha hb
    unfold retryLeadJobs at hb
    by_cases hz : (s.jobs.filter
        (fun j => j.lead == leadId && j.status == JobStatus.failed)).length = 0
    · rw [if_pos hz] at hb
      dsimp only at hb
      rw [ha] at hb
      injection hb with hb
      exact Or.inl hb
    · rw [if_neg hz] at hb
      dsimp only at hb
      rw [List.get?_map, ha] at hb
      injection hb with hb
      dsimp only at hb
      by_cases hcont : ((s.jobs.filter
          (fun j => j.lead == leadId && j.status == JobStatus.failed)).map
            Job.id).contains a.id
      · rw [if_pos hcont] at hb
        have hmem : a.id ∈ (s.jobs.filter
            (fun j => j.lead == leadId && j.status == JobStatus.failed)).map Job.id := by
          simpa using hcont
        obtain ⟨c, hcmem, hcid⟩ := List.mem_map.mp hmem
        have hcf := List.mem_filter.mp hcmem
        have hcfail : c.status = JobStatus.failed := by
          have := hcf.2
          simp only [Bool.and_eq_true, beq_iff_eq] at this
          exact this.2
        have hac : a = c :=
          nodup_ids_mem_eq hnd (List.get?_mem ha) hcf.1 hcid.symm
        refine Or.inr ⟨by rw [hac]; exact hcfail, ?_, ?_, ?_, ?_⟩ <;> rw [← hb]
      · rw [if_neg hcont] at hb
        exact Or.inl hb

/-- Concrete run of job_status_forward_only: a queued job whose handler
succeeds, next to a completed and a failed sibling. -/
theorem job_status_forward_only_witness :
    ((wstoreB.jobs.map Job.id).Nodup) ∧
    ((∃ mid, storeWriteOK wstoreB.jobs mid ∧
      storeWriteOK mid (processNextJob (fun _ => some true) 0 wstoreB).2.jobs) ∧
    (∀ rnow leadId i a b, wstoreB.jobs.get? i = some a →
      (retryLeadJobs rnow leadId wstoreB).2.jobs.get? i = some b →
      a = b ∨ (a.status = JobStatus.failed ∧ b.status = JobStatus.queued ∧
        b.attempts = 0 ∧ b.lastError = none ∧ b.runAt = rnow))) :=
  ⟨by decide, job_status_forward_only (fun _ => some true) 0 wstoreB (by decide)⟩

theorem claim?_eq_none {now : Nat} {js : List Job}
    (hno : ∀ i c, js.get? i = some c → ¬ jobEligible now c) :
    claim? now js = none := by
  cases hc : claim? now js with
  | none => rfl
  | some pr =>
    obtain ⟨k, b⟩ := pr
    exact absurd (claim?_eligible hc) (hno k b (claim?_get hc))

theorem processNextJob_no_eligible (h : Job → Option Bool) (t : Nat) (s : Store)
    (hno : ∀ i c, s.jobs.get? i = some c → ¬ jobEligible t c) :
    processNextJob h t s = (RunResult.ok false, s) := by
  have hac : applyClaim t s.jobs = none := by
    unfold applyClaim
    rw [claim?_eq_none hno]
  unfold processNextJob
  rw [hac]

/-- C9: retryLeadJobs on a Lead that has zero FAILED jobs writes nothing —
every Job and every Lead document is returned exactly as it was — and the
response reports success. -/
theorem retry_no_failed_noop (now leadId : Nat) (s : Store)
    (hz : countJobs (fun j => j.lead == leadId && j.status == JobStatus.failed) s.jobs = 0) :
    retryLeadJobs now leadId s = (true, s) := by
  unfold retryLeadJobs
  dsimp only
  rw [if_pos (show (s.jobs.filter
    (fun j => j.lead == leadId && j.status == JobStatus.failed)).length = 0 from hz)]

/-- Concrete run of retry_no_failed_noop on a store whose jobs are queued,
processing and completed but never failed. -/
theorem retry_no_failed_noop_witness :
    countJobs (fun j => j.lead == 2 && j.status == JobStatus.failed) wstoreA.jobs = 0 ∧
    retryLeadJobs 77 2 wstoreA = (true, wstoreA) :=
  ⟨by decide, retry_no_failed_noop 77 2 wstoreA (by decide)⟩

/-! ### Result flag of a run -/

theorem processNextJobTask_fst (h : Job → Option Bool) (now : Nat) (s : Store) :
    (processNextJobTask h now s).1 = RunResult.ok true ↔
    (∃ j js1 lead, applyClaim now s.jobs = some (j, js1) ∧
      findLead j.lead s.leads = some lead ∧
      sourceResolves lead s.sources = true ∧ h j = some true) := by
  unfold processNextJobTask
  cases hac : applyClaim now s.jobs with
  | none =>
    constructor
    · intro hco; cases hco
    · rintro ⟨j, js1, lead, hac2, _⟩
      cases hac2
  | some pr =>
    obtain ⟨job, js1⟩ := pr
    dsimp only
    cases hfl : findLead job.lead s.leads with
    | none =>
      dsimp only
      constructor
      · intro hco; exact absurd hco catchPath_fst_ne_true
      · rintro ⟨j, js2, lead, hac2, hfl2, _⟩
        injection hac2 with hac2
        injection hac2 with hj hjs
        subst hj
        rw [hfl] at hfl2
        cases hfl2
    | some lead =>
      dsimp only
      cases hsr : sourceResolves lead s.sources with
      | false =>
        rw [if_neg (by simp)]
        constructor
        · intro hco; exact absurd hco catchPath_fst_ne_true
        · rintro ⟨j, js2, lead2, hac2, hfl2, hsr2, _⟩
          injection hac2 with hac2
          injection hac2 with hj hjs
          subst hj
          rw [hfl] at hfl2
          injection hfl2 with hfl2
          subst hfl2
          rw [hsr] at hsr2
          cases hsr2
      | true =>
        rw [if_pos rfl]
        cases hh : h job with
        | none =>
          dsimp only
          constructor
          · intro hco; exact absurd hco catchPath_fst_ne_true
          · rintro ⟨j, js2, lead2, hac2, hfl2, hsr2, hh2⟩
            injection hac2 with hac2
            injection hac2 with hj hjs
            subst hj
            rw [hh] at hh2
            cases hh2
        | some ok =>
          dsimp only
          cases ok with
          | false =>
            rw [if_neg (by simp)]
            constructor
            · intro hco; exact absurd hco catchPath_fst_ne_true
            · rintro ⟨j, js2, lead2, hac2, hfl2, hsr2, hh2⟩
              injection hac2 with hac2
              injection hac2 with hj hjs
              subst hj
              rw [hh] at hh2
              cases hh2
          | true =>
            rw [if_pos rfl]
            constructor
            · intro _; exact ⟨job, js1, lead, rfl, hfl, hsr, hh⟩
            · intro _; rfl

theorem processNextJob_fst (h : Job → Option Bool) (now : Nat) (s : Store) :
    (processNextJob h now s).1 = RunResult.ok true ↔
    (∃ j js1 lead, applyClaim now s.jobs = some (j, js1) ∧
      findLead j.lead s.leads = some lead ∧
      sourceResolves lead s.sources = true ∧ h j = some true) := by
  unfold processNextJob
  cases hac : applyClaim now s.jobs with
  | none =>
    constructor
    · intro hco; cases hco
    · rintro ⟨j, js1, lead, hac2, _⟩
      cases hac2
  | some pr =>
    obtain ⟨job, js1⟩ := pr
    dsimp only
    cases hfl : findLead job.lead s.leads with
    | none =>
      dsimp only
      constructor
      · intro hco; exact absurd hco catchPath_fst_ne_true
      · rintro ⟨j, js2, lead, hac2, hfl2, _⟩
        injection hac2 with hac2
        injection hac2 with hj hjs
        subst hj
        rw [hfl] at hfl2
        cases hfl2
    | some lead =>
      dsimp only
      cases hsr : sourceResolves lead s.sources with
      | false =>
        rw [if_neg (by simp)]
        constructor
        · intro hco; exact absurd hco catchPath_fst_ne_true
        · rintro ⟨j, js2, lead2, hac2, hfl2, hsr2, _⟩
          injection hac2 with hac2
          injection hac2 with hj hjs
          subst hj
          rw [hfl] at hfl2
          injection hfl2 with hfl2
          subst hfl2
          rw [hsr] at hsr2
          cases hsr2
      | true =>
        rw [if_pos rfl]
        cases hh : h job with
        | none =>
          dsimp only
          constructor
          · intro hco; exact absurd hco catchPath_fst_ne_true
          · rintro ⟨j, js2, lead2, hac2, hfl2, hsr2, hh2⟩
            injection hac2 with hac2
            injection hac2 with hj hjs
            subst hj
            rw [hh] at hh2
            cases hh2
        | some ok =>
          dsimp only
          cases ok with
          | false =>
            rw [if_neg (by simp)]
            constructor
            · intro hco; exact absurd hco catchPath_fst_ne_true
            · rintro ⟨j, js2, lead2, hac2, hfl2, hsr2, hh2⟩
              injection hac2 with hac2
              injection hac2 with hj hjs
              subst hj
              rw [hh] at hh2
              cases hh2
          | true =>
            rw [if_pos rfl]
            constructor
            · intro _
              exact ⟨job, js1, lead, rfl, hfl, hsr, hh⟩
            · intro _
              by_cases hp : pendingCount lead.id
                  (updateFirstJob job.id
                    (fun j => { j with status := JobStatus.completed }) js1) = 0
              · rw [if_pos hp]
                by_cases hf0 : failedCount lead.id
                    (updateFirstJob job.id
                      (fun j => { j with status := JobStatus.completed }) js1) = 0
                · rw [if_pos hf0]
                · rw [if_neg hf0]
              · rw [if_neg hp]

theorem processNextJob_success_shape (h : Job → Option Bool) (now : Nat) (s : Store)
    (hnd : (s.jobs.map Job.id).Nodup) {j : Job} {js1 : List Job} {lead : Lead}
    (hac : applyClaim now s.jobs = some (j, js1))
    (hfl : findLead j.lead s.leads = some lead)
    (hsr : sourceResolves lead s.sources = true)
    (hh : h j = some true) :
    ∃ k jq, claim? now s.jobs = some (k, jq) ∧ j = claimUpd jq ∧
      (processNextJob h now s).2.jobs.get? k =
        some { jq with status := JobStatus.completed, attempts := jq.attempts + 1 } := by
  obtain ⟨k, jq, hc, hj, hjs1⟩ := applyClaim_some hac
  subst hj
  subst hjs1
  have hjs1k : (s.jobs.set k (claimUpd jq)).get? k = some (claimUpd jq) := by
    rw [List.get?_set, if_pos rfl, claim?_get hc]; rfl
  have hnd1 : ((s.jobs.set k (claimUpd jq)).map Job.id).Nodup := by
    rw [applyClaim_ids hac]; exact hnd
  have hjobs : (processNextJob h now s).2.jobs =
      (s.jobs.set k (claimUpd jq)).set k
        { claimUpd jq with status := JobStatus.completed } := by
    unfold processNextJob
    rw [hac]
    dsimp only
    rw [hfl]
    dsimp only
    rw [hsr, if_pos rfl, hh]
    dsimp only
    rw [if_pos rfl]
    rw [updateFirstJob_eq_set hnd1 hjs1k rfl]
    by_cases hp : pendingCount lead.id
        ((s.jobs.set k (claimUpd jq)).set k
          { claimUpd jq with status := JobStatus.completed }) = 0
    · rw [if_pos hp]
      by_cases hf0 : failedCount lead.id
          ((s.jobs.set k (claimUpd jq)).set k
            { claimUpd jq with status := JobStatus.completed }) = 0
      · rw [if_pos hf0]
      · rw [if_neg hf0]
    · rw [if_neg hp]
  refine ⟨k, jq, hc, rfl, ?_⟩
  rw [hjobs, List.get?_set, if_pos rfl, List.get?_set, if_pos rfl, claim?_get hc]
  rfl

/-- C10 amended: processNextJob returns true exactly when a Job was claimed,
its lead and source resolved, and its handler returned true; in that case the
claimed Job is marked COMPLETED in the store. When a Job is claimed but the
attempt fails, the run returns false — except that a missing Lead on the final
attempt makes the run itself throw — so in every failed-attempt case the
result is not true and the dispatch loop sleeps the full poll interval, even
if other eligible QUEUED Jobs are waiting. -/
theorem run_result_semantics (h : Job → Option Bool) (now : Nat) (s : Store)
    (hnd : (s.jobs.map Job.id).Nodup) :
    ((processNextJob h now s).1 = RunResult.ok true ↔
      (∃ j js1 lead, applyClaim now s.jobs = some (j, js1) ∧
        findLead j.lead s.leads = some lead ∧
        sourceResolves lead s.sources = true ∧ h j = some true)) ∧
    ((processNextJob h now s).1 = RunResult.ok true →
      ∃ k jq, claim? now s.jobs = some (k, jq) ∧
        (processNextJob h now s).2.jobs.get? k =
          some { jq with status := JobStatus.completed, attempts := jq.attempts + 1 }) ∧
    (∀ j js1, applyClaim now s.jobs = some (j, js1) →
      (∀ lead, findLead j.lead s.leads = some lead → h j ≠ some true →
        (processNextJob h now s).1 = RunResult.ok false) ∧
      (findLead j.lead s.leads = none → j.attempts < MAX_ATTEMPTS →
        (processNextJob h now s).1 = RunResult.ok false) ∧
      (findLead j.lead s.leads = none → ¬ j.attempts < MAX_ATTEMPTS →
        (processNextJob h now s).1 = RunResult.threw)) ∧
    (workerSleeps h now s = true ↔
      ¬ ((processNextJobTask h now s).1 = RunResult.ok true)) := by
  refine ⟨processNextJob_fst h now s, ?_, ?_, ?_⟩
  · intro htrue
    obtain ⟨j, js1, lead, hac, hfl, hsr, hh⟩ := (processNextJob_fst h now s).mp htrue
    obtain ⟨k, jq, hc, _, hget⟩ := processNextJob_success_shape h now s hnd hac hfl hsr hh
    exact ⟨k, jq, hc, hget⟩
  · intro j js1 hac
    refine ⟨?_, ?_, ?_⟩
    · intro lead hfl hh
      unfold processNextJob
      rw [hac]
      dsimp only
      rw [hfl]
      dsimp only
      cases hsr : sourceResolves lead s.sources with
      | false =>
        rw [if_neg (by simp [hsr])]
        exact catchPath_fst_ok_false (Or.inr (by simp))
      | true =>
        rw [if_pos (by simp [hsr])]
        cases hh2 : h j with
        | none =>
          dsimp only
          exact catchPath_fst_ok_false (Or.inr (by simp))
        | some ok =>
          dsimp only
          cases ok with
          | false =>
            rw [if_neg (by simp)]
            exact catchPath_fst_ok_false (Or.inr (by simp))
          | true => exact absurd hh2 hh
    · intro hfl hlt
      unfold processNextJob
      rw [hac]
      dsimp only
      rw [hfl]
      dsimp only
      unfold catchPath
      rw [if_pos hlt]
    · intro hfl hge
      unfold processNextJob
      rw [hac]
      dsimp only
      rw [hfl]
      dsimp only
      unfold catchPath
      rw [if_neg hge]
  · unfold workerSleeps
    cases hres : (processNextJobTask h now s).1 with
    | ok b => cases b <;> simp
    | threw => simp

/-- Concrete run of run_result_semantics on a healthy store with a succeeding
handler. -/
theorem run_result_semantics_witness :
    ((cstoreH.jobs.map Job.id).Nodup) ∧
    (((processNextJob (fun _ => some true) 0 cstoreH).1 = RunResult.ok true ↔
      (∃ j js1 lead, applyClaim 0 cstoreH.jobs = some (j, js1) ∧
        findLead j.lead cstoreH.leads = some lead ∧
        sourceResolves lead cstoreH.sources = true ∧ (some true : Option Bool) = some true)) ∧
    (((processNextJob (fun _ => some true) 0 cstoreH).1 = RunResult.ok true →
      ∃ k jq, claim? 0 cstoreH.jobs = some (k, jq) ∧
        (processNextJob (fun _ => some true) 0 cstoreH).2.jobs.get? k =
          some { jq with status := JobStatus.completed, attempts := jq.attempts + 1 })) ∧
    (∀ j js1, applyClaim 0 cstoreH.jobs = some (j, js1) →
      (∀ lead, findLead j.lead cstoreH.leads = some lead →
        (some true : Option Bool) ≠ some true →
        (processNextJob (fun _ => some true) 0 cstoreH).1 = RunResult.ok false) ∧
      (findLead j.lead cstoreH.leads = none → j.attempts < MAX_ATTEMPTS →
        (processNextJob (fun _ => some true) 0 cstoreH).1 = RunResult.ok false) ∧
      (findLead j.lead cstoreH.leads = none → ¬ j.attempts < MAX_ATTEMPTS →
        (processNextJob (fun _ => some true) 0 cstoreH).1 = RunResult.threw)) ∧
    (workerSleeps (fun _ => some true) 0 cstoreH = true ↔
      ¬ ((processNextJobTask (fun _ => some true) 0 cstoreH).1 = RunResult.ok true))) :=
  ⟨by decide, run_result_semantics (fun _ => some true) 0 cstoreH (by decide)⟩

/-- C10 counterexample: a claimed third attempt whose Lead reference is
missing makes processNextJob itself throw, not return false. -/
theorem run_result_counterexample :
    (applyClaim 0 cstoreJ.jobs).isSome = true ∧
    (processNextJob (fun _ => some false) 0 cstoreJ).1 = RunResult.threw ∧
    ¬ (processNextJob (fun _ => some false) 0 cstoreJ).1 = RunResult.ok false := by
  decide

/-- C8 amended: one dispatch-loop iteration skips the sleep exactly when the
claim found a Job, its lead and source resolved, and its handler returned
true; the loop sleeps the poll interval both when the claim returns none and
after any failed attempt. -/
theorem dispatch_sleep_iff (h : Job → Option Bool) (now : Nat) (s : Store) :
    workerSleeps h now s = false ↔
    (∃ j js1 lead, applyClaim now s.jobs = some (j, js1) ∧
      findLead j.lead s.leads = some lead ∧
      sourceResolves lead s.sources = true ∧ h j = some true) := by
  rw [← processNextJobTask_fst]
  unfold workerSleeps
  cases hres : (processNextJobTask h now s).1 with
  | ok b => cases b <;> simp
  | threw => simp

/-- C8 counterexample: two due QUEUED jobs; the first is claimed but its
handler fails, so the iteration sleeps the poll interval even though the claim
did return a job and another eligible QUEUED job is still waiting afterwards. -/
theorem dispatch_sleep_counterexample :
    workerSleeps (fun _ => some false) 0 cstoreH = true ∧
    (claim? 0 cstoreH.jobs).isSome = true ∧
    (claim? 0 (processNextJobTask (fun _ => some false) 0 cstoreH).2.jobs).isSome = true := by
  decide

theorem sourceResolves_setSubStatus (t : JobType) (ok : Bool) (l : Lead) (srcs : List Nat) :
    sourceResolves (setSubStatus t ok l) srcs = sourceResolves l srcs := by
  unfold sourceResolves
  rw [setSubStatus_sourceId]

theorem single_job_fail_step (h : Job → Option Bool) (t : Nat) (j : Job) (lead : Lead)
    (ls : List Lead) (srcs : List Nat)
    (hst : j.status = JobStatus.queued) (hrt : j.runAt ≤ t)
    (hfl : findLead j.lead ls = some lead) (hsr : sourceResolves lead srcs = true)
    (hh : h (claimUpd j) = some false)
    (hatt : j.attempts + 1 < MAX_ATTEMPTS) :
    processNextJob h t { jobs := [j], leads := ls, sources := srcs } =
      (RunResult.ok false,
       { jobs := [⟨j.id, j.lead, j.type, JobStatus.queued, j.attempts + 1,
            some "handler returned false", t + backoffDelay (j.attempts + 1)⟩],
         leads := updateFirstLead lead.id (setSubStatus j.type false) ls,
         sources := srcs }) := by
  have hel : jobEligible t j := ⟨hst, hrt⟩
  have hcl : claim? t [j] = some (0, j) := by
    unfold claim?
    rw [if_pos hel]
    rfl
  have hac : applyClaim t [j] = some (claimUpd j, [claimUpd j]) := by
    unfold applyClaim
    rw [hcl]
    rfl
  have hfl2 : findLead (claimUpd j).lead ls = some lead := hfl
  have hatt2 : (claimUpd j).attempts < MAX_ATTEMPTS := hatt
  unfold processNextJob
  dsimp only
  rw [hac]
  dsimp only
  rw [hfl2]
  dsimp only
  rw [hsr, if_pos rfl, hh]
  dsimp only
  rw [if_neg (by simp)]
  unfold catchPath
  rw [if_pos hatt2]
  dsimp only
  unfold updateFirstJob
  rw [if_pos rfl]
  rfl

theorem single_job_fail_final (h : Job → Option Bool) (t : Nat) (j : Job) (lead : Lead)
    (ls : List Lead) (srcs : List Nat)
    (hst : j.status = JobStatus.queued) (hrt : j.runAt ≤ t)
    (hfl : findLead j.lead ls = some lead) (hsr : sourceResolves lead srcs = true)
    (hh : h (claimUpd j) = some false)
    (hatt : ¬ (j.attempts + 1 < MAX_ATTEMPTS)) :
    processNextJob h t { jobs := [j], leads := ls, sources := srcs } =
      (RunResult.ok false,
       { jobs := [⟨j.id, j.lead, j.type, JobStatus.failed, j.attempts + 1,
            some "handler returned false", t⟩],
         leads := updateFirstLead lead.id
           (fun l2 => { l2 with status := LeadStatus.failed })
           (updateFirstLead lead.id (setSubStatus j.type false) ls),
         sources := srcs }) := by
  have hel : jobEligible t j := ⟨hst, hrt⟩
  have hcl : claim? t [j] = some (0, j) := by
    unfold claim?
    rw [if_pos hel]
    rfl
  have hac : applyClaim t [j] = some (claimUpd j, [claimUpd j]) := by
    unfold applyClaim
    rw [hcl]
    rfl
  have hfl2 : findLead (claimUpd j).lead ls = some lead := hfl
  have hatt2 : ¬ (claimUpd j).attempts < MAX_ATTEMPTS := hatt
  unfold processNextJob
  dsimp only
  rw [hac]
  dsimp only
  rw [hfl2]
  dsimp only
  rw [hsr, if_pos rfl, hh]
  dsimp only
  rw [if_neg (by simp)]
  unfold catchPath
  rw [if_neg hatt2]
  dsimp only
  unfold updateFirstJob
  rw [if_pos rfl]
  rfl

/-- C5: with MAX_ATTEMPTS = 3, a due QUEUED Job whose handler fails on every
attempt is claimed exactly three times — its attempts counter reads 1, 2 and
then 3 — and after the third failure it is FAILED with attempts = 3 and
lastError set; afterwards no call at any time ever claims it or changes the
store again, so there is no 4th attempt. -/
theorem attempt_cap (h : Job → Option Bool) (j : Job) (lead : Lead) (ls : List Lead)
    (srcs : List Nat) (t1 t2 t3 : Nat)
    (hst : j.status = JobStatus.queued) (hatt0 : j.attempts = 0)
    (hfl : findLead j.lead ls = some lead) (hsr : sourceResolves lead srcs = true)
    (hhf : ∀ jb, h jb = some false)
    (h1 : j.runAt ≤ t1) (h2 : t1 + 5000 ≤ t2) (h3 : t2 + 25000 ≤ t3) :
    ∃ s1 s2 s3 : Store,
      processNextJob h t1 { jobs := [j], leads := ls, sources := srcs }
        = (RunResult.ok false, s1) ∧
      processNextJob h t2 s1 = (RunResult.ok false, s2) ∧
      processNextJob h t3 s2 = (RunResult.ok false, s3) ∧
      s1.jobs.map Job.attempts = [1] ∧ s1.jobs.map Job.status = [JobStatus.queued] ∧
      s2.jobs.map Job.attempts = [2] ∧ s2.jobs.map Job.status = [JobStatus.queued] ∧
      s3.jobs = [⟨j.id, j.lead, j.type, JobStatus.failed, 3,
        some "handler returned false", t3⟩] ∧
      (∀ t4, processNextJob h t4 s3 = (RunResult.ok false, s3)) := by
  obtain ⟨jid, jlead, jtype, jst, jatt, jerr, jrun⟩ := j
  dsimp only at hst hatt0 hfl h1 ⊢
  subst hst
  subst hatt0
  have hlid : lead.id = jlead := (findLead_some hfl).1
  have hfl1 : findLead jlead
      (updateFirstLead lead.id (setSubStatus jtype false) ls) =
      some (setSubStatus jtype false lead) := by
    rw [hlid, findLead_updateFirstLead_self (setSubStatus_id jtype false) jlead ls, hfl]
    rfl
  have hsr1 : sourceResolves (setSubStatus jtype false lead) srcs = true := by
    rw [sourceResolves_setSubStatus]
    exact hsr
  have hlid1 : (setSubStatus jtype false lead).id = jlead := by
    rw [setSubStatus_id]
    exact hlid
  have hfl2 : findLead jlead
      (updateFirstLead (setSubStatus jtype false lead).id (setSubStatus jtype false)
        (updateFirstLead lead.id (setSubStatus jtype false) ls)) =
      some (setSubStatus jtype false (setSubStatus jtype false lead)) := by
    rw [hlid1, findLead_updateFirstLead_self (setSubStatus_id jtype false) jlead _, hfl1]
    rfl
  have hsr2 : sourceResolves (setSubStatus jtype false (setSubStatus jtype false lead))
      srcs = true := by
    rw [sourceResolves_setSubStatus, sourceResolves_setSubStatus]
    exact hsr
  have step1 := single_job_fail_step h t1
      ⟨jid, jlead, jtype, JobStatus.queued, 0, jerr, jrun⟩ lead ls srcs
      rfl h1 hfl hsr (hhf _) (show 0 + 1 < MAX_ATTEMPTS from by decide)
  have step2 := single_job_fail_step h t2
      ⟨jid, jlead, jtype, JobStatus.queued, 0 + 1, some "handler returned false",
        t1 + backoffDelay (0 + 1)⟩
      (setSubStatus jtype false lead)
      (updateFirstLead lead.id (setSubStatus jtype false) ls) srcs
      rfl (by rw [show backoffDelay (0 + 1) = 5000 from by decide]; exact h2)
      hfl1 hsr1 (hhf _) (show 0 + 1 + 1 < MAX_ATTEMPTS from by decide)
  have step3 := single_job_fail_final h t3
      ⟨jid, jlead, jtype, JobStatus.queued, 0 + 1 + 1, some "handler returned false",
        t2 + backoffDelay (0 + 1 + 1)⟩
      (setSubStatus jtype false (setSubStatus jtype false lead))
      (updateFirstLead (setSubStatus jtype false lead).id (setSubStatus jtype false)
        (updateFirstLead lead.id (setSubStatus jtype false) ls))
      srcs
      rfl (by rw [show backoffDelay (0 + 1 + 1) = 25000 from by decide]; exact h3)
      hfl2 hsr2 (hhf _) (show ¬ 0 + 1 + 1 + 1 < MAX_ATTEMPTS from by decide)
  refine ⟨_, _, _, step1, step2, step3, rfl, rfl, rfl, rfl, rfl, ?_⟩
  intro t4
  apply processNextJob_no_eligible
  intro i c hc
  match i, hc with
  | 0, hc =>
    injection hc with hc
    subst hc
    intro hel
    exact absurd hel.1 (show ¬ JobStatus.failed = JobStatus.queued from by decide)
  | (i + 1), hc => simp at hc

/-- Concrete run of attempt_cap: cjobK fails at times 0, 5000 and 30000 and
ends FAILED with attempts 3. -/
theorem attempt_cap_witness :
    (cjobK.status = JobStatus.queued ∧ cjobK.attempts = 0 ∧
     findLead cjobK.lead [cleadK] = some cleadK ∧
     sourceResolves cleadK [7] = true ∧
     cjobK.runAt ≤ 0 ∧ 0 + 5000 ≤ 5000 ∧ 5000 + 25000 ≤ 30000) ∧
    (∃ s1 s2 s3 : Store,
      processNextJob (fun _ => some false) 0
          { jobs := [cjobK], leads := [cleadK], sources := [7] }
        = (RunResult.ok false, s1) ∧
      processNextJob (fun _ => some false) 5000 s1 = (RunResult.ok false, s2) ∧
      processNextJob (fun _ => some false) 30000 s2 = (RunResult.ok false, s3) ∧
      s1.jobs.map Job.attempts = [1] ∧ s1.jobs.map Job.status = [JobStatus.queued] ∧
      s2.jobs.map Job.attempts = [2] ∧ s2.jobs.map Job.status = [JobStatus.queued] ∧
      s3.jobs = [⟨cjobK.id, cjobK.lead, cjobK.type, JobStatus.failed, 3,
        some "handler returned false", 30000⟩] ∧
      (∀ t4, processNextJob (fun _ => some false) t4 s3 = (RunResult.ok false, s3))) :=
  ⟨by decide,
   attempt_cap (fun _ => some false) cjobK cleadK [cleadK] [7] 0 5000 30000
     (by decide) (by decide) (by decide) (by decide) (fun _ => rfl)
     (by decide) (by decide) (by decide)⟩

/-- C6 amended: with the defaults, the first failed attempt re-queues the Job
with runAt = now + 5000·5^(attempts−1) = now + 5s and the second with
now + 25s; the third failure does NOT re-queue: it transitions the Job to
FAILED with runAt = now and no backoff, so the deltas are 5s and 25s only. -/
theorem backoff_schedule (h : Job → Option Bool) (j : Job) (lead : Lead) (ls : List Lead)
    (srcs : List Nat) (t1 t2 t3 : Nat)
    (hst : j.status = JobStatus.queued) (hatt0 : j.attempts = 0)
    (hfl : findLead j.lead ls = some lead) (hsr : sourceResolves lead srcs = true)
    (hhf : ∀ jb, h jb = some false)
    (h1 : j.runAt ≤ t1) (h2 : t1 + 5000 ≤ t2) (h3 : t2 + 25000 ≤ t3) :
    ∃ s1 s2 s3 : Store,
      processNextJob h t1 { jobs := [j], leads := ls, sources := srcs }
        = (RunResult.ok false, s1) ∧
      processNextJob h t2 s1 = (RunResult.ok false, s2) ∧
      processNextJob h t3 s2 = (RunResult.ok false, s3) ∧
      s1.jobs.map Job.status = [JobStatus.queued] ∧
      s1.jobs.map Job.runAt = [t1 + 5000 * 5 ^ (1 - 1)] ∧
      s2.jobs.map Job.status = [JobStatus.queued] ∧
      s2.jobs.map Job.runAt = [t2 + 5000 * 5 ^ (2 - 1)] ∧
      s3.jobs.map Job.status = [JobStatus.failed] ∧
      s3.jobs.map Job.runAt = [t3] := by
  obtain ⟨jid, jlead, jtype, jst, jatt, jerr, jrun⟩ := j
  dsimp only at hst hatt0 hfl h1 ⊢
  subst hst
  subst hatt0
  have hlid : lead.id = jlead := (findLead_some hfl).1
  have hfl1 : findLead jlead
      (updateFirstLead lead.id (setSubStatus jtype false) ls) =
      some (setSubStatus jtype false lead) := by
    rw [hlid, findLead_updateFirstLead_self (setSubStatus_id jtype false) jlead ls, hfl]
    rfl
  have hsr1 : sourceResolves (setSubStatus jtype false lead) srcs = true := by
    rw [sourceResolves_setSubStatus]
    exact hsr
  have hlid1 : (setSubStatus jtype false lead).id = jlead := by
    rw [setSubStatus_id]
    exact hlid
  have hfl2 : findLead jlead
      (updateFirstLead (setSubStatus jtype false lead).id (setSubStatus jtype false)
        (updateFirstLead lead.id (setSubStatus jtype false) ls)) =
      some (setSubStatus jtype false (setSubStatus jtype false lead)) := by
    rw [hlid1, findLead_updateFirstLead_self (setSubStatus_id jtype false) jlead _, hfl1]
    rfl
  have hsr2 : sourceResolves (setSubStatus jtype false (setSubStatus jtype false lead))
      srcs = true := by
    rw [sourceResolves_setSubStatus, sourceResolves_setSubStatus]
    exact hsr
  have step1 := single_job_fail_step h t1
      ⟨jid, jlead, jtype, JobStatus.queued, 0, jerr, jrun⟩ lead ls srcs
      rfl h1 hfl hsr (hhf _) (show 0 + 1 < MAX_ATTEMPTS from by decide)
  have step2 := single_job_fail_step h t2
      ⟨jid, jlead, jtype, JobStatus.queued, 0 + 1, some "handler returned false",
        t1 + backoffDelay (0 + 1)⟩
      (setSubStatus jtype false lead)
      (updateFirstLead lead.id (setSubStatus jtype false) ls) srcs
      rfl (by rw [show backoffDelay (0 + 1) = 5000 from by decide]; exact h2)
      hfl1 hsr1 (hhf _) (show 0 + 1 + 1 < MAX_ATTEMPTS from by decide)
  have step3 := single_job_fail_final h t3
      ⟨jid, jlead, jtype, JobStatus.queued, 0 + 1 + 1, some "handler returned false",
        t2 + backoffDelay (0 + 1 + 1)⟩
      (setSubStatus jtype false (setSubStatus jtype false lead))
      (updateFirstLead (setSubStatus jtype false lead).id (setSubStatus jtype false)
        (updateFirstLead lead.id (setSubStatus jtype false) ls))
      srcs
      rfl (by rw [show backoffDelay (0 + 1 + 1) = 25000 from by decide]; exact h3)
      hfl2 hsr2 (hhf _) (show ¬ 0 + 1 + 1 + 1 < MAX_ATTEMPTS from by decide)
  exact ⟨_, _, _, step1, step2, step3, rfl, rfl, rfl, rfl, rfl, rfl⟩

/-- Concrete run of backoff_schedule on cjobK at times 0, 5000, 30000. -/
theorem backoff_schedule_witness :
    (cjobK.status = JobStatus.queued ∧ cjobK.attempts = 0 ∧
     findLead cjobK.lead [cleadK] = some cleadK ∧
     sourceResolves cleadK [7] = true ∧
     cjobK.runAt ≤ 0 ∧ 0 + 5000 ≤ 5000 ∧ 5000 + 25000 ≤ 30000) ∧
    (∃ s1 s2 s3 : Store,
      processNextJob (fun _ => some false) 0
          { jobs := [cjobK], leads := [cleadK], sources := [7] }
        = (RunResult.ok false, s1) ∧
      processNextJob (fun _ => some false) 5000 s1 = (RunResult.ok false, s2) ∧
      processNextJob (fun _ => some false) 30000 s2 = (RunResult.ok false, s3) ∧
      s1.jobs.map Job.status = [JobStatus.queued] ∧
      s1.jobs.map Job.runAt = [0 + 5000 * 5 ^ (1 - 1)] ∧
      s2.jobs.map Job.status = [JobStatus.queued] ∧
      s2.jobs.map Job.runAt = [5000 + 5000 * 5 ^ (2 - 1)] ∧
      s3.jobs.map Job.status = [JobStatus.failed] ∧
      s3.jobs.map Job.runAt = [30000]) :=
  ⟨by decide,
   backoff_schedule (fun _ => some false) cjobK cleadK [cleadK] [7] 0 5000 30000
     (by decide) (by decide) (by decide) (by decide) (fun _ => rfl)
     (by decide) (by decide) (by decide)⟩

/-- C6 counterexample: after the third consecutive failure the Job is FAILED
with runAt = now, not re-queued with a 125s delta. -/
theorem backoff_counterexample :
    failRun3.jobs.map Job.status = [JobStatus.failed] ∧
    failRun3.jobs.map Job.runAt = [30000] ∧
    ¬ (failRun3.jobs.map Job.status = [JobStatus.queued] ∧
       failRun3.jobs.map Job.runAt = [30000 + 5000 * 5 ^ (3 - 1)]) := by
  decide

/-- C7: evaluation at the failing input — a claimed Job whose Lead reference
does not resolve, on its third attempt: the catch block itself throws
(job.lead._id on null), the Job is left PROCESSING with no lastError, and no
later claim at any time can ever pick it up again. -/
theorem structural_failure_stuck :
    (processNextJob (fun _ => some false) 0 cstoreG).1 = RunResult.threw ∧
    (processNextJob (fun _ => some false) 0 cstoreG).2.jobs.map Job.status
      = [JobStatus.processing] ∧
    (processNextJob (fun _ => some false) 0 cstoreG).2.jobs.map Job.lastError = [none] ∧
    (∀ t, applyClaim t (processNextJob (fun _ => some false) 0 cstoreG).2.jobs = none) := by
  refine ⟨by decide, by decide, by decide, ?_⟩
  intro t
  have hjobs : (processNextJob (fun _ => some false) 0 cstoreG).2.jobs =
      [⟨50, 99, JobType.appendToSheets, JobStatus.processing, 3, none, 0⟩] := by decide
  rw [hjobs]
  have hcl : claim? t [(⟨50, 99, JobType.appendToSheets, JobStatus.processing, 3,
      none, 0⟩ : Job)] = none := by
    apply claim?_eq_none
    intro i c hc
    match i, hc with
    | 0, hc =>
      injection hc with hc
      subst hc
      intro hel
      exact absurd hel.1 (show ¬ JobStatus.processing = JobStatus.queued from by decide)
    | (i + 1), hc => simp at hc
  unfold applyClaim
  rw [hcl]


theorem updateFirstLead_get?_ex (x : Nat) (f : Lead → Lead) (ls : List Lead) (i : Nat)
    {l : Lead} (hl : ls.get? i = some l) :
    ∃ l1, (updateFirstLead x f ls).get? i = some l1 ∧
      (l1 = l ∨ (l.id = x ∧ l1 = f l)) := by
  rcases updateFirstLead_get? x f ls i with hsame | ⟨l3, hl3, hid3, hres⟩
  · exact ⟨l, by rw [hsame, hl], Or.inl rfl⟩
  · rw [hl] at hl3
    injection hl3 with h3
    subst h3
    exact ⟨f l, hres, Or.inr ⟨hid3, rfl⟩⟩

/-- C3 counterexample: a Lead with one exhausted failing Job and one still
QUEUED sibling; after the permanent failure the Lead reads FAILED even though
a pending Job of that Lead remains in the store. -/
theorem lead_aggregation_counterexample :
    ((processNextJob (fun _ => some false) 0 cstoreC).2.jobs.map Job.status
      = [JobStatus.failed, JobStatus.queued]) ∧
    ((processNextJob (fun _ => some false) 0 cstoreC).2.leads.map Lead.status
      = [LeadStatus.failed]) ∧
    cstoreC.leads.map Lead.status = [LeadStatus.processing] ∧
    pendingCount 1 (processNextJob (fun _ => some false) 0 cstoreC).2.jobs ≠ 0 := by
  decide

/-- C3 amended: on a successful completion the Status Aggregator obeys the
fan-in rule — a Lead's status is written to SUCCESS only when the resulting
store holds no pending (QUEUED or PROCESSING) Job and no FAILED Job of that
Lead, and when pending or failed Jobs remain the success run leaves every
Lead's status unchanged; but on a permanent failure the worker writes the
owning Lead's status to FAILED immediately, regardless of its remaining
Jobs. -/
theorem lead_aggregation (h : Job → Option Bool) (now : Nat) (s : Store) :
    (∀ i l l2, s.leads.get? i = some l →
      (processNextJob h now s).2.leads.get? i = some l2 →
      l2.status = LeadStatus.success → l.status ≠ LeadStatus.success →
      pendingCount l2.id (processNextJob h now s).2.jobs = 0 ∧
      failedCount l2.id (processNextJob h now s).2.jobs = 0) ∧
    (∀ j js1 lead, applyClaim now s.jobs = some (j, js1) →
      findLead j.lead s.leads = some lead →
      sourceResolves lead s.sources = true → h j = some true →
      (¬ pendingCount lead.id (updateFirstJob j.id
          (fun j2 => { j2 with status := JobStatus.completed }) js1) = 0 ∨
       ¬ failedCount lead.id (updateFirstJob j.id
          (fun j2 => { j2 with status := JobStatus.completed }) js1) = 0) →
      (processNextJob h now s).2.leads.map Lead.status = s.leads.map Lead.status) ∧
    (∀ j js1 lead, applyClaim now s.jobs = some (j, js1) →
      findLead j.lead s.leads = some lead →
      sourceResolves lead s.sources = true → h j = some false →
      ¬ j.attempts < MAX_ATTEMPTS →
      ∃ l2, findLead lead.id (processNextJob h now s).2.leads = some l2 ∧
        l2.status = LeadStatus.failed) := by
  refine ⟨?_, ?_, ?_⟩
  · intro i l l2 hl
    unfold processNextJob
    cases hac : applyClaim now s.jobs with
    | none =>
      dsimp only
      intro hl2 hsucc hne
      rw [hl] at hl2
      injection hl2 with hl2
      subst hl2
      exact absurd hsucc hne
    | some pr =>
      obtain ⟨job, js1⟩ := pr
      dsimp only
      cases hfl : findLead job.lead s.leads with
      | none =>
        dsimp only
        intro hl2 hsucc hne
        rcases catchPath_leads job none now "missing lead or source data"
            { s with jobs := js1 } with hleads | ⟨_, lx, hlx, _⟩
        · rw [hleads] at hl2
          dsimp only at hl2
          rw [hl] at hl2
          injection hl2 with hl2
          subst hl2
          exact absurd hsucc hne
        · cases hlx
      | some lead =>
        dsimp only
        cases hsr : sourceResolves lead s.sources with
        | false =>
          rw [if_neg (by simp)]
          intro hl2 hsucc hne
          rcases catchPath_leads job (some lead) now "missing lead or source data"
              { s with jobs := js1 } with hleads | ⟨_, lx, hlx, hleads⟩
          · rw [hleads] at hl2
            dsimp only at hl2
            rw [hl] at hl2
            injection hl2 with hl2
            subst hl2
            exact absurd hsucc hne
          · injection hlx with hlx
            subst hlx
            rw [hleads] at hl2
            dsimp only at hl2
            obtain ⟨l1, hl1, hc1⟩ := updateFirstLead_get?_ex lead.id
              (fun l3 => { l3 with status := LeadStatus.failed })
              ({ s with jobs := js1 } : Store).leads i hl
            rw [hl1] at hl2
            injection hl2 with hl2
            subst hl2
            rcases hc1 with hc1 | ⟨_, hc1⟩
            · subst hc1; exact absurd hsucc hne
            · subst hc1
              exact absurd hsucc
                (show ¬ LeadStatus.failed = LeadStatus.success from by decide)
        | true =>
          rw [if_pos rfl]
          cases hh : h job with
          | none =>
            dsimp only
            intro hl2 hsucc hne
            rcases catchPath_leads job (some lead) now "handler threw"
                { s with jobs := js1 } with hleads | ⟨_, lx, hlx, hleads⟩
            · rw [hleads] at hl2
              dsimp only at hl2
              rw [hl] at hl2
              injection hl2 with hl2
              subst hl2
              exact absurd hsucc hne
            · injection hlx with hlx
              subst hlx
              rw [hleads] at hl2
              dsimp only at hl2
              obtain ⟨l1, hl1, hc1⟩ := updateFirstLead_get?_ex lead.id
                (fun l3 => { l3 with status := LeadStatus.failed })
                ({ s with jobs := js1 } : Store).leads i hl
              rw [hl1] at hl2
              injection hl2 with hl2
              subst hl2
              rcases hc1 with hc1 | ⟨_, hc1⟩
              · subst hc1; exact absurd hsucc hne
              · subst hc1
                exact absurd hsucc
                  (show ¬ LeadStatus.failed = LeadStatus.success from by decide)
          | some ok =>
            dsimp only
            cases ok with
            | false =>
              rw [if_neg (by simp)]
              intro hl2 hsucc hne
              rcases catchPath_leads job (some lead) now "handler returned false"
                  { s with jobs := js1, leads := updateFirstLead lead.id (setSubStatus job.type false) s.leads } with hleads | ⟨_, lx, hlx, hleads⟩
              · rw [hleads] at hl2
                dsimp only at hl2
                obtain ⟨l1, hl1, hc1⟩ := updateFirstLead_get?_ex lead.id
                  (setSubStatus job.type false) s.leads i hl
                rw [hl1] at hl2
                injection hl2 with hl2
                subst hl2
                rcases hc1 with hc1 | ⟨_, hc1⟩
                · subst hc1; exact absurd hsucc hne
                · subst hc1
                  rw [setSubStatus_status] at hsucc
                  exact absurd hsucc hne
              · injection hlx with hlx
                subst hlx
                rw [hleads] at hl2
                dsimp only at hl2
                obtain ⟨l1, hl1, hc1⟩ := updateFirstLead_get?_ex lead.id
                  (setSubStatus job.type false) s.leads i hl
                obtain ⟨l4, hl4, hc4⟩ := updateFirstLead_get?_ex lead.id
                  (fun l3 => { l3 with status := LeadStatus.failed })
                  (updateFirstLead lead.id (setSubStatus job.type false) s.leads) i hl1
                rw [hl4] at hl2
                injection hl2 with hl2
                subst hl2
                rcases hc4 with hc4 | ⟨_, hc4⟩
                · subst hc4
                  rcases hc1 with hc1 | ⟨_, hc1⟩
                  · subst hc1; exact absurd hsucc hne
                  · subst hc1
                    rw [setSubStatus_status] at hsucc
                    exact absurd hsucc hne
                · subst hc4
                  exact absurd hsucc
                    (show ¬ LeadStatus.failed = LeadStatus.success from by decide)
            | true =>
              rw [if_pos rfl]
              by_cases hp : pendingCount lead.id
                  (updateFirstJob job.id
                    (fun j2 => { j2 with status := JobStatus.completed }) js1) = 0
              · rw [if_pos hp]
                by_cases hf0 : failedCount lead.id
                    (updateFirstJob job.id
                      (fun j2 => { j2 with status := JobStatus.completed }) js1) = 0
                · rw [if_pos hf0]
                  dsimp only
                  intro hl2 hsucc hne
                  obtain ⟨l1, hl1, hc1⟩ := updateFirstLead_get?_ex lead.id
                    (setSubStatus job.type true) s.leads i hl
                  obtain ⟨l4, hl4, hc4⟩ := updateFirstLead_get?_ex lead.id
                    (fun l3 => { l3 with status := LeadStatus.success })
                    (updateFirstLead lead.id (setSubStatus job.type true) s.leads) i hl1
                  rw [hl4] at hl2
                  injection hl2 with hl2
                  subst hl2
                  rcases hc4 with hc4 | ⟨hid4, hc4⟩
                  · subst hc4
                    rcases hc1 with hc1 | ⟨_, hc1⟩
                    · subst hc1; exact absurd hsucc hne
                    · subst hc1
                      rw [setSubStatus_status] at hsucc
                      exact absurd hsucc hne
                  · subst hc4
                    have hid1 : l1.id = lead.id := hid4
                    refine ⟨?_, ?_⟩ <;> · dsimp only; rw [hid1]; first | exact hp | exact hf0
                · rw [if_neg hf0]
                  dsimp only
                  intro hl2 hsucc hne
                  obtain ⟨l1, hl1, hc1⟩ := updateFirstLead_get?_ex lead.id
                    (setSubStatus job.type true) s.leads i hl
                  rw [hl1] at hl2
                  injection hl2 with hl2
                  subst hl2
                  rcases hc1 with hc1 | ⟨_, hc1⟩
                  · subst hc1; exact absurd hsucc hne
                  · subst hc1
                    rw [setSubStatus_status] at hsucc
                    exact absurd hsucc hne
              · rw [if_neg hp]
                dsimp only
                intro hl2 hsucc hne
                obtain ⟨l1, hl1, hc1⟩ := updateFirstLead_get?_ex lead.id
                  (setSubStatus job.type true) s.leads i hl
                rw [hl1] at hl2
                injection hl2 with hl2
                subst hl2
                rcases hc1 with hc1 | ⟨_, hc1⟩
                · subst hc1; exact absurd hsucc hne
                · subst hc1
                  rw [setSubStatus_status] at hsucc
                  exact absurd hsucc hne
  · intro j js1 lead hac hfl hsr hh hcond
    unfold processNextJob
    rw [hac]
    dsimp only
    rw [hfl]
    dsimp only
    rw [hsr, if_pos rfl, hh]
    dsimp only
    rw [if_pos rfl]
    by_cases hp : pendingCount lead.id
        (updateFirstJob j.id (fun j2 => { j2 with status := JobStatus.completed }) js1) = 0
    · rw [if_pos hp]
      by_cases hf0 : failedCount lead.id
          (updateFirstJob j.id (fun j2 => { j2 with status := JobStatus.completed }) js1) = 0
      · rcases hcond with hcond | hcond
        · exact absurd hp hcond
        · exact absurd hf0 hcond
      · rw [if_neg hf0]
        dsimp only
        exact map_status_updateFirstLead (setSubStatus_status j.type true) lead.id s.leads
    · rw [if_neg hp]
      dsimp only
      exact map_status_updateFirstLead (setSubStatus_status j.type true) lead.id s.leads
  · intro j js1 lead hac hfl hsr hh hge
    unfold processNextJob
    rw [hac]
    dsimp only
    rw [hfl]
    dsimp only
    rw [hsr, if_pos rfl, hh]
    dsimp only
    rw [if_neg (by simp)]
    unfold catchPath
    rw [if_neg hge]
    dsimp only
    rw [findLead_updateFirstLead_self
      (f := fun l2 => { l2 with status := LeadStatus.failed }) (fun _ => rfl) lead.id
      (updateFirstLead lead.id (setSubStatus j.type false) s.leads)]
    rw [findLead_updateFirstLead_self (setSubStatus_id j.type false) lead.id s.leads]
    have hfll : findLead lead.id s.leads = some lead := by
      rw [(findLead_some hfl).1]
      exact hfl
    rw [hfll]
    exact ⟨_, rfl, rfl⟩

/-- Concrete instantiation of lead_aggregation at the two-job store. -/
theorem lead_aggregation_witness :
    (∀ i l l2, cstoreC.leads.get? i = some l →
      (processNextJob (fun _ => some false) 0 cstoreC).2.leads.get? i = some l2 →
      l2.status = LeadStatus.success → l.status ≠ LeadStatus.success →
      pendingCount l2.id (processNextJob (fun _ => some false) 0 cstoreC).2.jobs = 0 ∧
      failedCount l2.id (processNextJob (fun _ => some false) 0 cstoreC).2.jobs = 0) ∧
    (∀ j js1 lead, applyClaim 0 cstoreC.jobs = some (j, js1) →
      findLead j.lead cstoreC.leads = some lead →
      sourceResolves lead cstoreC.sources = true →
      (some false : Option Bool) = some true →
      (¬ pendingCount lead.id (updateFirstJob j.id
          (fun j2 => { j2 with status := JobStatus.completed }) js1) = 0 ∨
       ¬ failedCount lead.id (updateFirstJob j.id
          (fun j2 => { j2 with status := JobStatus.completed }) js1) = 0) →
      (processNextJob (fun _ => some false) 0 cstoreC).2.leads.map Lead.status
        = cstoreC.leads.map Lead.status) ∧
    (∀ j js1 lead, applyClaim 0 cstoreC.jobs = some (j, js1) →
      findLead j.lead cstoreC.leads = some lead →
      sourceResolves lead cstoreC.sources = true →
      (some false : Option Bool) = some false →
      ¬ j.attempts < MAX_ATTEMPTS →
      ∃ l2, findLead lead.id (processNextJob (fun _ => some false) 0 cstoreC).2.leads
          = some l2 ∧
        l2.status = LeadStatus.failed) :=
  lead_aggregation (fun _ => some false) 0 cstoreC

end Backend
